import Mathlib

/-!
Verification development for the lenstronomy point-source engine
(`lenstronomy/PointSource/point_source.py`) and the Gaussian lens profile
(`lenstronomy/LensModel/Profiles/gaussian.py`).

The Gaussian profile's scalar-path arithmetic is embedded over `ℝ`
(floating-point evaluation idealised as real arithmetic).  The point-source
aggregator's keyword-argument dictionaries are embedded with an explicit
heap of dictionary records addressed by natural-number references, so that
in-place mutation and deep copying are distinguishable.
-/

namespace Gaussian

/-- The small-radius floor constant `self.ds = 0.00001` set in `Gaussian.__init__`. -/
noncomputable def ds : ℝ := 1 / 100000

/-- Embeds `Gaussian._amp2d_to_3d`: converts a 2d density amplitude into the 3d
density parameter, `amp / (sqrt(pi) * sqrt(sigma_x * sigma_y * 2))`. -/
noncomputable def amp2d_to_3d (amp sigma_x sigma_y : ℝ) : ℝ :=
  amp / (Real.sqrt Real.pi * Real.sqrt (sigma_x * sigma_y * 2))

/-- Embeds `Gaussian._amp3d_to_2d`: converts a 3d density amplitude into the 2d
density parameter, `amp * sqrt(pi) * sqrt(sigma_x * sigma_y * 2)`. -/
noncomputable def amp3d_to_2d (amp sigma_x sigma_y : ℝ) : ℝ :=
  amp * Real.sqrt Real.pi * Real.sqrt (sigma_x * sigma_y * 2)

/-- Embeds `Gaussian._num_integral`: the 1D integral of `(1 - exp(-c*x^2))/x` from 0
to `r`, special-cased to return 0 when `r = 0` (in the source a `scipy.quad`
call; here the interval integral it approximates). -/
noncomputable def num_integral (r c : ℝ) : ℝ :=
  if r = 0 then 0 else ∫ x in (0:ℝ)..r, (1 - Real.exp (-c * x ^ 2)) / x

/-- Embeds `Gaussian.function` (scalar path): lensing potential of the Gaussian
convergence, a prefactor times the numerical integral. -/
noncomputable def function (x y amp sigma center_x center_y : ℝ) : ℝ :=
  let x_ := x - center_x
  let y_ := y - center_y
  let r := Real.sqrt (x_ ^ 2 + y_ ^ 2)
  let c := 1 / (2 * sigma * sigma)
  let num_int := num_integral r c
  let amp_density := amp2d_to_3d amp sigma sigma
  let amp2d := amp_density / (Real.sqrt Real.pi * Real.sqrt (sigma * sigma * 2))
  let amp2d' := amp2d * (2 * 1 / (2 * c))
  num_int * amp2d'

/-- Embeds `Gaussian.mass_2d`: projected mass enclosed in a circle of radius `R`. -/
noncomputable def mass_2d (R amp sigma : ℝ) : ℝ :=
  let amp2d := amp / (Real.sqrt Real.pi * Real.sqrt (sigma * sigma * 2))
  let c := 1 / (2 * sigma * sigma)
  amp2d * 2 * Real.pi * 1 / (2 * c) * (1 - Real.exp (-c * R ^ 2))

/-- Embeds `Gaussian.alpha_abs`: absolute value of the deflection,
`mass_2d(R, amp_3d, sigma) / pi / R` with the amplitude converted to 3d. -/
noncomputable def alpha_abs (R amp sigma : ℝ) : ℝ :=
  let amp_density := amp2d_to_3d amp sigma sigma
  mass_2d R amp_density sigma / Real.pi / R

/-- Embeds `Gaussian.d_alpha_dr`: closed-form radial derivative of the deflection. -/
noncomputable def d_alpha_dr (R amp sigma_x sigma_y : ℝ) : ℝ :=
  let c := 1 / (2 * sigma_x * sigma_y)
  let A := amp2d_to_3d amp sigma_x sigma_y * Real.sqrt (2 / Real.pi * sigma_x * sigma_y)
  1 / R ^ 2 * (-1 + (1 + 2 * c * R ^ 2) * Real.exp (-c * R ^ 2)) * A

/-- The radius flooring `R = max(R, self.ds)` applied by both
`Gaussian.derivatives` and `Gaussian.hessian` (scalar path) to the centered
offsets before any division. -/
noncomputable def floored_radius (x_ y_ : ℝ) : ℝ :=
  max (Real.sqrt (x_ ^ 2 + y_ ^ 2)) ds

/-- Embeds `Gaussian.derivatives` (scalar path): deflection `(alpha/R*x_, alpha/R*y_)`
with the radius floored at `ds`. -/
noncomputable def derivatives (x y amp sigma center_x center_y : ℝ) : ℝ × ℝ :=
  let x_ := x - center_x
  let y_ := y - center_y
  let R := floored_radius x_ y_
  let alpha := alpha_abs R amp sigma
  (alpha / R * x_, alpha / R * y_)

/-- Embeds `Gaussian.hessian` (scalar path): second derivatives derived from
`alpha_abs` and `d_alpha_dr`, with the radius floored at `ds`. -/
noncomputable def hessian (x y amp sigma center_x center_y : ℝ) : ℝ × ℝ × ℝ × ℝ :=
  let x_ := x - center_x
  let y_ := y - center_y
  let r := floored_radius x_ y_
  let dadr := -(d_alpha_dr r amp sigma sigma)
  let alpha := alpha_abs r amp sigma
  let f_xx := -(dadr / r + alpha / r ^ 2) * x_ ^ 2 / r + alpha / r
  let f_yy := -(dadr / r + alpha / r ^ 2) * y_ ^ 2 / r + alpha / r
  let f_xy := -(dadr / r + alpha / r ^ 2) * x_ * y_ / r
  (f_xx, f_xy, f_xy, f_yy)

end Gaussian

namespace PointSrc

/-- Squared Euclidean distance `(x - x_solved) ** 2 + (y - y_solved) ** 2`
between an original point and a solved point. -/
def dist2 (o p : ℚ × ℚ) : ℚ := (o.1 - p.1) ^ 2 + (o.2 - p.2) ^ 2

/-- Minimum value of a list of rationals; 0 on the empty list (unused case:
`np.argmin` raises on an empty array). -/
def listMin : List ℚ → ℚ
  | [] => 0
  | [a] => a
  | a :: b :: l => min a (listMin (b :: l))

/-- Embeds `np.argmin`: index of the first occurrence of the minimum value; 0 on the
empty list. -/
def argmin : List ℚ → Nat
  | [] => 0
  | [_] => 0
  | a :: b :: l => if listMin (b :: l) < a then argmin (b :: l) + 1 else 0

/-- The matching loop of `_sort_position_by_original`: for each original point
in order, pick the remaining solved point minimising the squared distance
(`np.argmin`, first-minimum tie-break) and remove it from the pool
(`np.delete`); returns the matched points and the leftover pool. -/
def greedyMatch : List (ℚ × ℚ) → List (ℚ × ℚ) → List (ℚ × ℚ) × List (ℚ × ℚ)
  | [], pool => ([], pool)
  | o :: os, pool =>
    let j := argmin (pool.map (fun p => dist2 o p))
    let rest := greedyMatch os (pool.eraseIdx j)
    (pool.getD j (0, 0) :: rest.1, rest.2)

/-- Embeds `_sort_position_by_original`: if there are fewer solved than original
positions return the originals unchanged; otherwise greedily re-match and
append the leftover solved points, in their original solved order, behind the
matched ones. -/
def sort_position_by_original (x_o y_o x_solved y_solved : List ℚ) :
    List ℚ × List ℚ :=
  if x_solved.length < x_o.length then (x_o, y_o)
  else
    let res := greedyMatch (x_o.zip y_o) (x_solved.zip y_solved)
    ((res.1 ++ res.2).map Prod.fst, (res.1 ++ res.2).map Prod.snd)

/-- Specification predicate written from the spec's words (§4.5
PositionMatcher): `GreedyAssign os pool out` holds when `out` is obtained by
taking, for each original point of `os` in order, the closest remaining
solved point by squared Euclidean distance — ties broken by the first
(lowest-index) minimum — removing it from the pool so no solved point is used
twice, and finally appending the leftover pool in its original order. -/
inductive GreedyAssign : List (ℚ × ℚ) → List (ℚ × ℚ) → List (ℚ × ℚ) → Prop
  | nil (pool : List (ℚ × ℚ)) : GreedyAssign [] pool pool
  | cons (o : ℚ × ℚ) (os pool out : List (ℚ × ℚ)) (j : Nat) (hj : j < pool.length)
      (hmin : ∀ k, k < pool.length →
        dist2 o (pool.getD j (0, 0)) ≤ dist2 o (pool.getD k (0, 0)))
      (hfirst : ∀ k, k < j →
        dist2 o (pool.getD j (0, 0)) < dist2 o (pool.getD k (0, 0)))
      (hrest : GreedyAssign os (pool.eraseIdx j) out) :
      GreedyAssign (o :: os) pool (pool.getD j (0, 0) :: out)

/-- An amplitude value stored in a point-source keyword dictionary: either a
scalar (as `source_amp` is after `update_linear`) or a numpy array. -/
inductive AmpVal
  | scalar (q : ℚ)
  | arr (qs : List ℚ)
deriving DecidableEq

/-- One point-source keyword-argument dictionary (an entry of `kwargs_ps`),
with the two amplitude keys explicit and every other key collected in
`rest`. -/
structure PSDict where
  source_amp : Option AmpVal := none
  point_amp : Option AmpVal := none
  rest : List (String × ℚ) := []
deriving DecidableEq

instance : Inhabited PSDict := ⟨{}⟩

/-- The heap of dictionary objects: a Python dict reference is an index into
this list, so that in-place mutation and deep copying are distinguishable. -/
abbrev Heap := List PSDict

/-- Dereference a dictionary. -/
def heapGet (h : Heap) (r : Nat) : PSDict := h.getD r {}

/-- Overwrite the dictionary object behind reference `r`. -/
def heapSet (h : Heap) (r : Nat) (d : PSDict) : Heap := h.set r d

/-- Embeds `np.all(np.asarray(v) >= 0)` for an amplitude value. -/
def ampAllNonneg : AmpVal → Bool
  | .scalar q => decide (0 ≤ q)
  | .arr qs => qs.all fun q => decide (0 ≤ q)

/-- An amplitude value with at least one negative element. -/
def ampHasNeg : AmpVal → Prop
  | .scalar q => q < 0
  | .arr qs => ∃ q ∈ qs, q < 0

/-- The per-entry check of `check_positive_flux`: both the `point_amp` and the
`source_amp` values, when present, are elementwise nonnegative. -/
def entryFluxOk (k : PSDict) : Bool :=
  (match k.point_amp with
   | some a => ampAllNonneg a
   | none => true) &&
  (match k.source_amp with
   | some a => ampAllNonneg a
   | none => true)

/-- Embeds `PointSource.check_positive_flux` (classmethod): scans `kwargs_ps` and
returns False as soon as some entry's `point_amp` or `source_amp` contains a
negative value; True otherwise, including when neither key is present. -/
def check_positive_flux : List PSDict → Bool
  | [] => true
  | k :: ks => if entryFluxOk k then check_positive_flux ks else false

/-- Embeds `PointSource.num_basis`: the loop over the declared sources, with the
per-source image-position lists computed by `image_position` abstracted as
the parameter `ra_pos_list`: each flux-enabled source contributes 1 if its
magnification is fixed and otherwise the length of its image-position
array. -/
def num_basis : List String → List Bool → List Bool → List (List ℚ) → Nat
  | _ :: types, f :: flux, m :: fixed, r :: ras =>
    (if f then if m then 1 else r.length else 0) + num_basis types flux fixed ras
  | _, _, _, _ => 0

/-- The loop of `PointSource.update_linear`, threading the running parameter
index `i` and the heap of dictionary objects.  The loop walks the per-source
flags (the parallel per-source lists are consumed with `headD`/`tail`,
mirroring the common index `k` of the source) and writes the consumed
parameters into the dictionary referenced by the matching `kwargs_ps` entry:
one scalar into `source_amp` for a fixed-magnification source, a slice
`param[i : i + n_points]` into `point_amp` otherwise.  Out-of-range indexing
of `param` (a Python IndexError) is modelled by the default 0; the theorems
assume the consumed indices are in range. -/
def updateLinearGo (param : List ℚ) :
    List Bool → List Bool → List (List ℚ) → List Nat → Nat → Heap → Nat × Heap
  | [], _, _, _, i, h => (i, h)
  | f :: flux, fixed, ras, refs, i, h =>
    if f then
      if fixed.headD false then
        updateLinearGo param flux fixed.tail ras.tail refs.tail (i + 1)
          (heapSet h (refs.headD 0)
            { heapGet h (refs.headD 0) with
                source_amp := some (.scalar (param.getD i 0)) })
      else
        updateLinearGo param flux fixed.tail ras.tail refs.tail
          (i + (ras.headD []).length)
          (heapSet h (refs.headD 0)
            { heapGet h (refs.headD 0) with
                point_amp := some (.arr ((param.drop i).take (ras.headD []).length)) })
    else updateLinearGo param flux fixed.tail ras.tail refs.tail i h

/-- Embeds `PointSource.update_linear`: runs the loop over the image-position lists
`ra_pos_list` computed by `image_position`, and returns the very reference
list `kwargs_ps` it was given (the Python method mutates the dictionaries in
place and returns the same list object) together with the next free
parameter index and the mutated heap. -/
def update_linear (flux fixed : List Bool) (ra_pos_list : List (List ℚ))
    (param : List ℚ) (i : Nat) (kwargs_ps : List Nat) (h : Heap) :
    (List Nat × Nat) × Heap :=
  ((kwargs_ps, (updateLinearGo param flux fixed ra_pos_list kwargs_ps i h).1),
   (updateLinearGo param flux fixed ra_pos_list kwargs_ps i h).2)

/-- Embeds `PointSource.linear_param_from_kwargs`: reads the flat amplitude list
back out of the kwargs dictionaries.  `none` models a Python error: a
required amplitude key that is missing (KeyError), a `source_amp` that is
not a scalar, or a `point_amp` that is not iterable (TypeError). -/
def linear_param_from_kwargs : List Bool → List Bool → List PSDict → Option (List ℚ)
  | [], _, _ => some []
  | f :: flux, fixed, ds =>
    if f then
      if fixed.headD false then
        match (ds.headD {}).source_amp with
        | some (.scalar q) =>
          (linear_param_from_kwargs flux fixed.tail ds.tail).map (fun t => q :: t)
        | _ => none
      else
        match (ds.headD {}).point_amp with
        | some (.arr qs) =>
          (linear_param_from_kwargs flux fixed.tail ds.tail).map (fun t => qs ++ t)
        | _ => none
    else linear_param_from_kwargs flux fixed.tail ds.tail

/-- The loop body of `PointSource.set_amplitudes` for one source: writes the
amplitude into `point_amp` for an UNLENSED source, into `source_amp` for a
fixed-magnification LENSED_POSITION/SOURCE_POSITION source and into
`point_amp` for a free one; flux-disabled sources and unrecognised type
strings are left untouched. -/
def setAmpStep (t : String) (f m : Bool) (amp : AmpVal) (ref : Nat) (h : Heap) : Heap :=
  if f then
    if t = "UNLENSED" then
      heapSet h ref { heapGet h ref with point_amp := some amp }
    else if t ∈ (["LENSED_POSITION", "SOURCE_POSITION"] : List String) then
      if m then heapSet h ref { heapGet h ref with source_amp := some amp }
      else heapSet h ref { heapGet h ref with point_amp := some amp }
    else h
  else h

/-- The loop of `PointSource.set_amplitudes` over the declared sources. -/
def setAmplitudesGo : List String → List Bool → List Bool → List AmpVal →
    List Nat → Heap → Heap
  | [], _, _, _, _, h => h
  | t :: types, flux, fixed, amps, refs, h =>
    setAmplitudesGo types flux.tail fixed.tail amps.tail refs.tail
      (setAmpStep t (flux.headD false) (fixed.headD false) (amps.headD (.scalar 0))
        (refs.headD 0) h)

/-- Embeds `PointSource.set_amplitudes`: deep-copies the kwargs list
(`copy.deepcopy` modelled as allocating one fresh dictionary per entry at
the end of the heap) and overwrites the amplitude keys of the copies. -/
def set_amplitudes (types : List String) (flux fixed : List Bool)
    (amp_list : List AmpVal) (kwargs_ps : List Nat) (h : Heap) : List Nat × Heap :=
  let fresh := List.range' h.length kwargs_ps.length
  let h1 := h ++ kwargs_ps.map (heapGet h)
  (fresh, setAmplitudesGo types flux fixed amp_list fresh h1)

/-- Embeds `_SUPPORTED_MODELS` from `point_source.py`. -/
def SUPPORTED_MODELS : List String := ["UNLENSED", "LENSED_POSITION", "SOURCE_POSITION"]

/-- The error raised during `PointSource.__init__`: a `ValueError` for a
configuration fault, an `IndexError` for out-of-range list access, a
`TypeError` for subscripting `None`. -/
inductive CtorErr
  | valueError
  | indexError
  | typeError
deriving DecidableEq

/-- The per-source model object built by `PointSource.__init__`
(`Unlensed()`, `LensedPositions(...)` or `SourcePositions(...)`), recording
the constructor arguments. -/
inductive PSModel
  | unlensed
  | lensedPositions (fixed_magnification additional_images : Bool)
      (index_lens_model_list : Option (List (List Nat)))
      (point_source_frame : Option (List Nat)) (redshift : Option ℚ)
  | sourcePositions (fixed_magnification : Bool) (redshift : Option ℚ)
deriving DecidableEq

/-- A `PointSourceCached(model, save_cache=...)` wrapper. -/
structure PointSourceCached where
  model : PSModel
  save_cache : Bool
deriving DecidableEq

/-- The Python type string of a built model wrapper. -/
def modelType (c : PointSourceCached) : String :=
  match c.model with
  | .unlensed => "UNLENSED"
  | .lensedPositions _ _ _ _ _ => "LENSED_POSITION"
  | .sourcePositions _ _ => "SOURCE_POSITION"

/-- Python list indexing `l[i]`: `IndexError` when out of range. -/
def listGetE {α : Type} (l : List α) (i : Nat) : Except CtorErr α :=
  if h : i < l.length then .ok l[i] else .error .indexError

/-- The body of the model-construction loop of `PointSource.__init__` for
one source: the `if model == "UNLENSED": ... elif ... elif ... else: raise
ValueError` chain, building one cached wrapper (or failing). -/
def buildModelHead (fixed_magnification_list additional_images_list : List Bool)
    (index_lens_model_list : Option (List (List Nat)))
    (point_source_frame_list : Option (List (Option (List Nat))))
    (redshift_list : List (Option ℚ)) (save_cache : Bool)
    (model : String) (i : Nat) : Except CtorErr PointSourceCached :=
  if model = "UNLENSED" then .ok ⟨.unlensed, save_cache⟩
  else if model = "LENSED_POSITION" then
    match listGetE fixed_magnification_list i with
    | .error e => .error e
    | .ok fm =>
      match listGetE additional_images_list i with
      | .error e => .error e
      | .ok ai =>
        match point_source_frame_list with
        | none => .error .typeError
        | some fl =>
          match listGetE fl i with
          | .error e => .error e
          | .ok fr =>
            match listGetE redshift_list i with
            | .error e => .error e
            | .ok z =>
              .ok ⟨.lensedPositions fm ai index_lens_model_list fr z, save_cache⟩
  else if model = "SOURCE_POSITION" then
    match listGetE fixed_magnification_list i with
    | .error e => .error e
    | .ok fm =>
      match listGetE redshift_list i with
      | .error e => .error e
      | .ok z => .ok ⟨.sourcePositions fm z, save_cache⟩
  else .error .valueError

/-- The model-construction loop of `PointSource.__init__` (`for i, model in
enumerate(point_source_type_list)`), after the argument defaulting. -/
def buildModels (fixed_magnification_list additional_images_list : List Bool)
    (index_lens_model_list : Option (List (List Nat)))
    (point_source_frame_list : Option (List (Option (List Nat))))
    (redshift_list : List (Option ℚ)) (save_cache : Bool) :
    List String → Nat → Except CtorErr (List PointSourceCached)
  | [], _ => .ok []
  | model :: rest, i =>
    match buildModelHead fixed_magnification_list additional_images_list
        index_lens_model_list point_source_frame_list redshift_list save_cache
        model i with
    | .error e => .error e
    | .ok c =>
      match buildModels fixed_magnification_list additional_images_list
          index_lens_model_list point_source_frame_list redshift_list save_cache
          rest (i + 1) with
      | .error e => .error e
      | .ok cs => .ok (c :: cs)

/-- Embeds `PointSource.__init__`: the frame-assignment validation and argument
defaulting followed by the model-construction loop.  The remaining
constructor arguments (`lens_model`, `flux_from_point_source_list`,
`magnification_limit`, `kwargs_lens_eqn_solver`) are stored unchanged and
cannot affect whether construction succeeds, so they are omitted here. -/
def mkPointSource (point_source_type_list : List String)
    (fixed_magnification_list additional_images_list : Option (List Bool))
    (index_lens_model_list : Option (List (List Nat)))
    (point_source_frame_list : Option (List (Option (List Nat))))
    (redshift_list : Option (List (Option ℚ)))
    (save_cache : Bool) : Except CtorErr (List PointSourceCached) :=
  let n := point_source_type_list.length
  if "LENSED_POSITION" ∈ point_source_type_list ∧
      index_lens_model_list.isSome ∧ point_source_frame_list.isNone then
    .error .valueError
  else
    let frame :=
      if "LENSED_POSITION" ∈ point_source_type_list ∧ index_lens_model_list.isNone then
        some (List.replicate n none)
      else point_source_frame_list
    buildModels (fixed_magnification_list.getD (List.replicate n false))
      (additional_images_list.getD (List.replicate n false))
      index_lens_model_list frame (redshift_list.getD (List.replicate n none))
      save_cache point_source_type_list 0

end PointSrc

namespace Gaussian

/-- C5: the amplitude-convention converters are exact inverses: for `a > 0`,
`s > 0`, `_amp3d_to_2d(_amp2d_to_3d(a,s,s),s,s) = a`, symmetrically
`_amp2d_to_3d(_amp3d_to_2d(a,s,s),s,s) = a`, and
`_amp2d_to_3d(a,s,s) = a / (sqrt(pi) * sqrt(2 s^2))`. -/
theorem amp_converters_inverse (a s : ℝ) (ha : 0 < a) (hs : 0 < s) :
    amp3d_to_2d (amp2d_to_3d a s s) s s = a ∧
    amp2d_to_3d (amp3d_to_2d a s s) s s = a ∧
    amp2d_to_3d a s s = a / (Real.sqrt Real.pi * Real.sqrt (2 * s ^ 2)) := by
  have hpi : Real.sqrt Real.pi ≠ 0 := ne_of_gt (Real.sqrt_pos.mpr Real.pi_pos)
  have hs2 : Real.sqrt (s * s * 2) ≠ 0 := ne_of_gt (Real.sqrt_pos.mpr (by positivity))
  refine ⟨?_, ?_, ?_⟩
  · unfold amp3d_to_2d amp2d_to_3d
    field_simp
    ring
  · unfold amp2d_to_3d amp3d_to_2d
    field_simp
    ring
  · unfold amp2d_to_3d
    rw [show s * s * 2 = 2 * s ^ 2 by ring]

/-- Witness for C5 at `a = 1`, `s = 1`. -/
theorem amp_converters_inverse_witness :
    amp3d_to_2d (amp2d_to_3d 1 1 1) 1 1 = 1 ∧
    amp2d_to_3d (amp3d_to_2d 1 1 1) 1 1 = 1 ∧
    amp2d_to_3d 1 1 1 = 1 / (Real.sqrt Real.pi * Real.sqrt (2 * 1 ^ 2)) :=
  amp_converters_inverse 1 1 one_pos one_pos

/-- C6: `derivatives` and `hessian` never divide by zero: the radius both use
is floored at `ds = 1e-5 > 0`, and at `x = center_x`, `y = center_y` the
deflection is exactly `(0, 0)` and the Hessian is the finite value
`(alpha_abs(ds)/ds, 0, 0, alpha_abs(ds)/ds)`. -/
theorem derivatives_hessian_center_safe (x y amp sigma center_x center_y : ℝ)
    (hs : 0 < sigma) :
    0 < floored_radius (x - center_x) (y - center_y) ∧
    ds ≤ floored_radius (x - center_x) (y - center_y) ∧
    derivatives center_x center_y amp sigma center_x center_y = (0, 0) ∧
    hessian center_x center_y amp sigma center_x center_y =
      (alpha_abs ds amp sigma / ds, 0, 0, alpha_abs ds amp sigma / ds) := by
  have hds : (0:ℝ) < ds := by unfold ds; norm_num
  refine ⟨lt_of_lt_of_le hds (le_max_right _ _), le_max_right _ _, ?_, ?_⟩
  · simp [derivatives]
  · simp [hessian, floored_radius, max_eq_right hds.le]

/-- Witness for C6 at `amp = 1`, `sigma = 1`, center `(0, 0)`, probe `(0, 0)`. -/
theorem derivatives_hessian_center_safe_witness :
    0 < floored_radius (0 - 0) (0 - 0) ∧
    ds ≤ floored_radius (0 - 0) (0 - 0) ∧
    derivatives 0 0 1 1 0 0 = (0, 0) ∧
    hessian 0 0 1 1 0 0 = (alpha_abs ds 1 1 / ds, 0, 0, alpha_abs ds 1 1 / ds) :=
  derivatives_hessian_center_safe 0 0 1 1 0 0 one_pos

/-- C7: the lensing potential at the center is exactly zero: `_num_integral`
is special-cased to 0 at `r = 0`, and `function` at `x = center_x`,
`y = center_y` returns exactly 0 for any `amp > 0`, `sigma > 0`. -/
theorem potential_zero_at_center (amp sigma center_x center_y c : ℝ)
    (ha : 0 < amp) (hs : 0 < sigma) :
    num_integral 0 c = 0 ∧
    function center_x center_y amp sigma center_x center_y = 0 := by
  constructor
  · simp [num_integral]
  · simp [function, num_integral]

/-- Witness for C7 at `amp = 1`, `sigma = 1`, center `(0, 0)`, `c = 1`. -/
theorem potential_zero_at_center_witness :
    num_integral 0 1 = 0 ∧ function 0 0 1 1 0 0 = 0 :=
  potential_zero_at_center 1 1 0 0 1 one_pos one_pos

end Gaussian

namespace PointSrc

lemma listMin_le : ∀ (l : List ℚ) (k : Nat), k < l.length → listMin l ≤ l.getD k 0
  | [a], 0, _ => le_refl a
  | [_], k + 1, hk => absurd hk (by simp)
  | a :: b :: l, 0, _ => by
    simp [listMin]
  | a :: b :: l, k + 1, hk => by
    have ih := listMin_le (b :: l) k (by simpa using hk)
    simpa [listMin] using le_trans (min_le_right a (listMin (b :: l))) ih

lemma argmin_lt_length : ∀ (l : List ℚ), l ≠ [] → argmin l < l.length
  | [_], _ => by simp [argmin]
  | a :: b :: l, _ => by
    by_cases h : listMin (b :: l) < a
    · have ih := argmin_lt_length (b :: l) (by simp)
      simp only [List.length_cons] at ih
      simp only [argmin, if_pos h, List.length_cons]
      omega
    · simp [argmin, h]

lemma getD_argmin : ∀ (l : List ℚ), l ≠ [] → l.getD (argmin l) 0 = listMin l
  | [a], _ => by simp [argmin, listMin]
  | a :: b :: l, _ => by
    have ih := getD_argmin (b :: l) (by simp)
    by_cases h : listMin (b :: l) < a
    · have ha : argmin (a :: b :: l) = argmin (b :: l) + 1 := by simp [argmin, h]
      rw [ha, List.getD_cons_succ, ih]
      simp [listMin, min_eq_right h.le]
    · have ha : argmin (a :: b :: l) = 0 := by simp [argmin, h]
      rw [ha, List.getD_cons_zero]
      simp [listMin, min_eq_left (not_lt.mp h)]

lemma argmin_first : ∀ (l : List ℚ) (k : Nat), k < argmin l → listMin l < l.getD k 0
  | [_], k, hk => by simp [argmin] at hk
  | a :: b :: l, k, hk => by
    by_cases h : listMin (b :: l) < a
    · simp only [argmin, if_pos h] at hk
      cases k with
      | zero => simpa [listMin, min_eq_right h.le] using h
      | succ k =>
        have ih := argmin_first (b :: l) k (by omega)
        simpa [listMin, min_eq_right h.le] using ih
    · simp [argmin, h] at hk

lemma greedyMatch_assign : ∀ (os pool : List (ℚ × ℚ)), os.length ≤ pool.length →
    GreedyAssign os pool ((greedyMatch os pool).1 ++ (greedyMatch os pool).2)
  | [], pool, _ => by simpa [greedyMatch] using GreedyAssign.nil pool
  | o :: os, pool, h => by
    have hpne : pool ≠ [] := by
      intro hp
      rw [hp] at h
      simp at h
    have hmapne : pool.map (fun p => dist2 o p) ≠ [] := by simpa using hpne
    have hj : argmin (pool.map (fun p => dist2 o p)) < pool.length := by
      have := argmin_lt_length _ hmapne
      simpa using this
    have hget : ∀ k, k < pool.length →
        (pool.map (fun p => dist2 o p)).getD k 0 = dist2 o (pool.getD k (0, 0)) := by
      intro k hk
      rw [List.getD_eq_getElem _ _ (by simpa using hk), List.getElem_map,
        List.getD_eq_getElem _ _ hk]
    have e : dist2 o (pool.getD (argmin (pool.map (fun p => dist2 o p))) (0, 0)) =
        listMin (pool.map (fun p => dist2 o p)) :=
      (hget _ hj).symm.trans (getD_argmin _ hmapne)
    have hminl : ∀ k, k < pool.length →
        dist2 o (pool.getD (argmin (pool.map (fun p => dist2 o p))) (0, 0)) ≤
          dist2 o (pool.getD k (0, 0)) := by
      intro k hk
      rw [e, ← hget _ hk]
      exact listMin_le _ k (by simpa using hk)
    have hfirstl : ∀ k, k < argmin (pool.map (fun p => dist2 o p)) →
        dist2 o (pool.getD (argmin (pool.map (fun p => dist2 o p))) (0, 0)) <
          dist2 o (pool.getD k (0, 0)) := by
      intro k hk
      have hk' : k < pool.length := lt_trans hk hj
      have hlt := argmin_first _ k hk
      rw [hget _ hk'] at hlt
      rw [e]
      exact hlt
    have hlen : os.length ≤ (pool.eraseIdx (argmin (pool.map (fun p => dist2 o p)))).length := by
      rw [List.length_eraseIdx_of_lt hj]
      simp at h
      omega
    have ih := greedyMatch_assign os (pool.eraseIdx (argmin (pool.map (fun p => dist2 o p)))) hlen
    show GreedyAssign (o :: os) pool _
    rw [show greedyMatch (o :: os) pool =
        (pool.getD (argmin (pool.map (fun p => dist2 o p))) (0, 0) ::
          (greedyMatch os (pool.eraseIdx (argmin (pool.map (fun p => dist2 o p))))).1,
         (greedyMatch os (pool.eraseIdx (argmin (pool.map (fun p => dist2 o p))))).2) from rfl,
      List.cons_append]
    exact GreedyAssign.cons o os pool _ _ hj hminl hfirstl ih

lemma cons_eraseIdx_perm (l : List (ℚ × ℚ)) (j : Nat) (hj : j < l.length) :
    (l.getD j (0, 0) :: l.eraseIdx j).Perm l := by
  rw [List.eraseIdx_eq_take_drop_succ, List.getD_eq_getElem _ _ hj]
  conv_rhs =>
    rw [← List.take_append_drop j l, List.drop_eq_getElem_cons hj]
  exact List.perm_middle.symm

lemma GreedyAssign.perm {os pool out : List (ℚ × ℚ)} (h : GreedyAssign os pool out) :
    out.Perm pool := by
  induction h with
  | nil pool => exact List.Perm.refl pool
  | cons o os pool out j hj hmin hfirst hrest ih =>
    exact (ih.cons _).trans (cons_eraseIdx_perm pool j hj)

/-- C2: `_sort_position_by_original` returns the originals unchanged when
there are more originals than solved points; otherwise it returns arrays of
length `len(solved)` whose entries realise the greedy nearest-neighbour
assignment (first `len(original)` entries chosen by first-minimum squared
distance without reusing a solved index, leftover solved points appended in
their original order), in particular a permutation of the solved points. -/
theorem sort_position_spec (x_o y_o x_solved y_solved : List ℚ)
    (hxo : x_o.length = y_o.length) (hxs : x_solved.length = y_solved.length) :
    (x_solved.length < x_o.length →
      sort_position_by_original x_o y_o x_solved y_solved = (x_o, y_o)) ∧
    (x_o.length ≤ x_solved.length →
      (sort_position_by_original x_o y_o x_solved y_solved).1.length = x_solved.length ∧
      (sort_position_by_original x_o y_o x_solved y_solved).2.length = x_solved.length ∧
      GreedyAssign (x_o.zip y_o) (x_solved.zip y_solved)
        (((sort_position_by_original x_o y_o x_solved y_solved).1).zip
          ((sort_position_by_original x_o y_o x_solved y_solved).2)) ∧
      (((sort_position_by_original x_o y_o x_solved y_solved).1).zip
          ((sort_position_by_original x_o y_o x_solved y_solved).2)).Perm
        (x_solved.zip y_solved)) := by
  constructor
  · intro h
    simp [sort_position_by_original, h]
  · intro h
    have hif : ¬x_solved.length < x_o.length := not_lt.mpr h
    have hzlen : (x_o.zip y_o).length ≤ (x_solved.zip y_solved).length := by
      simp [List.length_zip, ← hxo, ← hxs]
      omega
    have hga := greedyMatch_assign (x_o.zip y_o) (x_solved.zip y_solved) hzlen
    have hperm := hga.perm
    have hunf : sort_position_by_original x_o y_o x_solved y_solved =
        (((greedyMatch (x_o.zip y_o) (x_solved.zip y_solved)).1 ++
            (greedyMatch (x_o.zip y_o) (x_solved.zip y_solved)).2).map Prod.fst,
         ((greedyMatch (x_o.zip y_o) (x_solved.zip y_solved)).1 ++
            (greedyMatch (x_o.zip y_o) (x_solved.zip y_solved)).2).map Prod.snd) := by
      simp [sort_position_by_original, hif]
    have hlen : ((greedyMatch (x_o.zip y_o) (x_solved.zip y_solved)).1 ++
        (greedyMatch (x_o.zip y_o) (x_solved.zip y_solved)).2).length = x_solved.length := by
      have := hperm.length_eq
      simp [List.length_zip, ← hxs] at this
      simpa using this
    have hzipback : (((greedyMatch (x_o.zip y_o) (x_solved.zip y_solved)).1 ++
          (greedyMatch (x_o.zip y_o) (x_solved.zip y_solved)).2).map Prod.fst).zip
        (((greedyMatch (x_o.zip y_o) (x_solved.zip y_solved)).1 ++
          (greedyMatch (x_o.zip y_o) (x_solved.zip y_solved)).2).map Prod.snd) =
        (greedyMatch (x_o.zip y_o) (x_solved.zip y_solved)).1 ++
          (greedyMatch (x_o.zip y_o) (x_solved.zip y_solved)).2 := by
      have := List.zip_unzip ((greedyMatch (x_o.zip y_o) (x_solved.zip y_solved)).1 ++
        (greedyMatch (x_o.zip y_o) (x_solved.zip y_solved)).2)
      simpa [List.unzip_eq_map] using this
    rw [List.length_append] at hlen
    rw [hunf]
    refine ⟨by simp [hlen], by simp [hlen], ?_, ?_⟩
    · rw [hzipback]
      exact hga
    · rw [hzipback]
      exact hperm

/-- Witness for C2 with one original point `(0, 0)` and two solved points
`(2, 0)`, `(1, 0)`. -/
theorem sort_position_spec_witness :
    (sort_position_by_original [0] [0] [2, 1] [0, 0]).1.length = ([2, 1] : List ℚ).length ∧
    (sort_position_by_original [0] [0] [2, 1] [0, 0]).2.length = ([2, 1] : List ℚ).length ∧
    GreedyAssign (List.zip [0] [0]) (List.zip [2, 1] [0, 0])
      (((sort_position_by_original [0] [0] [2, 1] [0, 0]).1).zip
        ((sort_position_by_original [0] [0] [2, 1] [0, 0]).2)) ∧
    (((sort_position_by_original [0] [0] [2, 1] [0, 0]).1).zip
        ((sort_position_by_original [0] [0] [2, 1] [0, 0]).2)).Perm
      (List.zip [2, 1] [0, 0]) :=
  (sort_position_spec [0] [0] [2, 1] [0, 0] rfl rfl).2 (by decide)

lemma ampAllNonneg_false_iff (a : AmpVal) : ampAllNonneg a = false ↔ ampHasNeg a := by
  cases a with
  | scalar q => simp [ampAllNonneg, ampHasNeg, not_le]
  | arr qs =>
    rw [← Bool.not_eq_true]
    simp [ampAllNonneg, ampHasNeg, List.all_eq_true, not_le]

lemma optionAmp_false_iff (o : Option AmpVal) :
    (match o with
     | some a => ampAllNonneg a
     | none => true) = false ↔ ∃ a, o = some a ∧ ampHasNeg a := by
  cases o with
  | none => simp
  | some a => simp [ampAllNonneg_false_iff]

lemma entryFluxOk_false_iff (k : PSDict) :
    entryFluxOk k = false ↔
      (∃ a, k.point_amp = some a ∧ ampHasNeg a) ∨
      (∃ a, k.source_amp = some a ∧ ampHasNeg a) := by
  unfold entryFluxOk
  rw [Bool.and_eq_false_iff, optionAmp_false_iff, optionAmp_false_iff]

/-- C8: `check_positive_flux(kwargs_ps)` returns False iff some entry has a
`point_amp` or `source_amp` value with at least one negative element, and
True in every other case (including when neither key is present); in
particular False for `point_amp=[1.0, -0.3]` and True for
`point_amp=[1.0, 0.3]`. -/
theorem check_positive_flux_spec :
    (∀ kwargs_ps : List PSDict,
      check_positive_flux kwargs_ps = false ↔
        ∃ k ∈ kwargs_ps,
          (∃ a, k.point_amp = some a ∧ ampHasNeg a) ∨
          (∃ a, k.source_amp = some a ∧ ampHasNeg a)) ∧
    check_positive_flux [{ point_amp := some (.arr [1, -3/10]) }] = false ∧
    check_positive_flux [{ point_amp := some (.arr [1, 3/10]) }] = true := by
  refine ⟨?_, ?_, ?_⟩
  · intro kwargs_ps
    induction kwargs_ps with
    | nil => simp [check_positive_flux]
    | cons k ks ih =>
      rcases Bool.eq_false_or_eq_true (entryFluxOk k) with h | h
      · have hstep : check_positive_flux (k :: ks) = check_positive_flux ks := by
          simp [check_positive_flux, h]
        rw [hstep, ih]
        constructor
        · rintro ⟨x, hx, hbad⟩
          exact ⟨x, List.mem_cons_of_mem _ hx, hbad⟩
        · rintro ⟨x, hx, hbad⟩
          rcases List.mem_cons.mp hx with rfl | hx'
          · rw [(entryFluxOk_false_iff x).mpr hbad] at h
            cases h
          · exact ⟨x, hx', hbad⟩
      · have hstep : check_positive_flux (k :: ks) = false := by
          simp [check_positive_flux, h]
        rw [hstep]
        constructor
        · intro _
          exact ⟨k, List.mem_cons_self k ks, (entryFluxOk_false_iff k).mp h⟩
        · intro _
          rfl
  · norm_num [check_positive_flux, entryFluxOk, ampAllNonneg]
  · norm_num [check_positive_flux, entryFluxOk, ampAllNonneg]

/-- C4: `num_basis` equals the sum over declared sources, in declaration
order, of 0 for flux-disabled sources, 1 for flux-enabled fixed-magnification
sources, and the number of image positions otherwise. -/
theorem num_basis_eq_sum (types : List String) (flux fixed : List Bool)
    (ra_pos_list : List (List ℚ))
    (hf : flux.length = types.length) (hm : fixed.length = types.length)
    (hr : ra_pos_list.length = types.length) :
    num_basis types flux fixed ra_pos_list =
      ∑ i ∈ Finset.range types.length,
        if flux.getD i false then
          (if fixed.getD i false then 1 else (ra_pos_list.getD i []).length)
        else 0 := by
  induction types generalizing flux fixed ra_pos_list with
  | nil =>
    have h1 : flux = [] := List.length_eq_zero.mp (by simpa using hf)
    have h2 : fixed = [] := List.length_eq_zero.mp (by simpa using hm)
    have h3 : ra_pos_list = [] := List.length_eq_zero.mp (by simpa using hr)
    subst h1
    subst h2
    subst h3
    simp [num_basis]
  | cons t ts ih =>
    cases flux with
    | nil => simp at hf
    | cons f flux =>
      cases fixed with
      | nil => simp at hm
      | cons m fixed =>
        cases ra_pos_list with
        | nil => simp at hr
        | cons r ras =>
          have hf' : flux.length = ts.length := by simpa using hf
          have hm' : fixed.length = ts.length := by simpa using hm
          have hr' : ras.length = ts.length := by simpa using hr
          rw [show num_basis (t :: ts) (f :: flux) (m :: fixed) (r :: ras) =
              (if f then if m then 1 else r.length else 0) +
                num_basis ts flux fixed ras from rfl]
          rw [List.length_cons, Finset.sum_range_succ']
          simp only [List.getD_cons_succ, List.getD_cons_zero]
          rw [ih flux fixed ras hf' hm' hr']
          omega

/-- Witness for C4: two sources `["UNLENSED", "LENSED_POSITION"]`, both with
flux enabled, the second with fixed magnification, solving to 2 and 4 images
respectively. -/
theorem num_basis_eq_sum_witness :
    num_basis ["UNLENSED", "LENSED_POSITION"] [true, true] [false, true]
        [[1, 2], [1, 2, 3, 4]] =
      ∑ i ∈ Finset.range (["UNLENSED", "LENSED_POSITION"] : List String).length,
        if [true, true].getD i false then
          (if [false, true].getD i false then 1
           else (([[1, 2], [1, 2, 3, 4]] : List (List ℚ)).getD i []).length)
        else 0 :=
  num_basis_eq_sum _ _ _ _ rfl rfl rfl

lemma heapGet_set_ne (h : Heap) (r r' : Nat) (d : PSDict) (hne : r ≠ r') :
    heapGet (heapSet h r d) r' = heapGet h r' := by
  simp only [heapGet, heapSet, List.getD_eq_getElem?_getD]
  rw [List.getElem?_set_ne hne]

lemma heapGet_set_self (h : Heap) (r : Nat) (d : PSDict) (hr : r < h.length) :
    heapGet (heapSet h r d) r = d := by
  simp only [heapGet, heapSet, List.getD_eq_getElem?_getD]
  rw [List.getElem?_set_self hr]
  rfl

lemma heapSet_length (h : Heap) (r : Nat) (d : PSDict) :
    (heapSet h r d).length = h.length := List.length_set h r d

lemma getD_zero_headD {α : Type} (l : List α) (d : α) : l.getD 0 d = l.headD d := by
  cases l <;> rfl

lemma getD_succ_tail {α : Type} (l : List α) (d : α) (k : Nat) :
    l.getD (k + 1) d = l.tail.getD k d := by
  cases l <;> rfl

lemma updateLinearGo_heap_length (param : List ℚ) :
    ∀ (flux fixed : List Bool) (ras : List (List ℚ)) (refs : List Nat) (i : Nat) (h : Heap),
      (updateLinearGo param flux fixed ras refs i h).2.length = h.length := by
  intro flux
  induction flux with
  | nil => intro fixed ras refs i h; rfl
  | cons f flux ih =>
    intro fixed ras refs i h
    cases f with
    | false => simpa [updateLinearGo] using ih fixed.tail ras.tail refs.tail i h
    | true =>
      by_cases hm : fixed.headD false
      · simp only [updateLinearGo, hm, if_true]
        rw [ih]
        exact heapSet_length _ _ _
      · simp only [updateLinearGo, hm, if_true, if_false, Bool.false_eq_true]
        rw [ih]
        exact heapSet_length _ _ _

lemma updateLinearGo_index_mono (param : List ℚ) :
    ∀ (flux fixed : List Bool) (ras : List (List ℚ)) (refs : List Nat) (i : Nat) (h : Heap),
      i ≤ (updateLinearGo param flux fixed ras refs i h).1 := by
  intro flux
  induction flux with
  | nil => intro fixed ras refs i h; exact le_refl i
  | cons f flux ih =>
    intro fixed ras refs i h
    cases f with
    | false => simpa [updateLinearGo] using ih fixed.tail ras.tail refs.tail i h
    | true =>
      by_cases hm : fixed.headD false
      · simp only [updateLinearGo, hm, if_true]
        exact le_trans (by omega) (ih _ _ _ _ _)
      · simp only [updateLinearGo, hm, if_true, if_false, Bool.false_eq_true]
        exact le_trans (by omega) (ih _ _ _ _ _)

lemma updateLinearGo_index_eq (param : List ℚ) :
    ∀ (flux fixed : List Bool) (ras : List (List ℚ)) (refs : List Nat) (i : Nat) (h : Heap),
      (updateLinearGo param flux fixed ras refs i h).1 =
        i + ∑ k ∈ Finset.range flux.length,
          (if flux.getD k false then
            (if fixed.getD k false then 1 else (ras.getD k []).length) else 0) := by
  intro flux
  induction flux with
  | nil => intro fixed ras refs i h; simp [updateLinearGo]
  | cons f flux ih =>
    intro fixed ras refs i h
    rw [List.length_cons, Finset.sum_range_succ']
    have hsum : ∀ k, (f :: flux).getD (k + 1) false = flux.getD k false := by
      intro k; rfl
    have htail : (∑ k ∈ Finset.range flux.length,
        if (f :: flux).getD (k + 1) false then
          (if fixed.getD (k + 1) false then 1 else (ras.getD (k + 1) []).length) else 0) =
        ∑ k ∈ Finset.range flux.length,
          if flux.getD k false then
            (if fixed.tail.getD k false then 1 else (ras.tail.getD k []).length) else 0 :=
      Finset.sum_congr rfl fun k _ => by
        rw [List.getD_cons_succ, getD_succ_tail, getD_succ_tail]
    rw [htail, List.getD_cons_zero, getD_zero_headD, getD_zero_headD]
    cases f with
    | false =>
      simp only [updateLinearGo, Bool.false_eq_true, if_false]
      rw [ih]
      omega
    | true =>
      by_cases hm : fixed.headD false
      · simp only [updateLinearGo, hm, if_true]
        rw [ih]
        omega
      · simp only [updateLinearGo, hm, if_true, if_false, Bool.false_eq_true]
        rw [ih]
        omega

lemma updateLinearGo_frame (param : List ℚ) :
    ∀ (flux fixed : List Bool) (ras : List (List ℚ)) (refs : List Nat) (i : Nat) (h : Heap)
      (r : Nat), refs.length = flux.length → r ∉ refs →
      heapGet (updateLinearGo param flux fixed ras refs i h).2 r = heapGet h r := by
  intro flux
  induction flux with
  | nil => intro fixed ras refs i h r _ _; rfl
  | cons f flux ih =>
    intro fixed ras refs i h r hlen hr
    cases refs with
    | nil => simp at hlen
    | cons ref refs =>
      have hne : ref ≠ r := fun he => hr (he ▸ List.mem_cons_self _ _)
      have hr' : r ∉ refs := fun hmem => hr (List.mem_cons_of_mem _ hmem)
      have hlen' : refs.length = flux.length := by simpa using hlen
      cases f with
      | false =>
        simp only [updateLinearGo, Bool.false_eq_true, if_false, List.tail_cons]
        exact ih _ _ _ _ _ _ hlen' hr'
      | true =>
        by_cases hm : fixed.headD false
        · simp only [updateLinearGo, hm, if_true, List.tail_cons, List.headD_cons]
          rw [ih _ _ _ _ _ _ hlen' hr']
          exact heapGet_set_ne h ref r _ hne
        · simp only [updateLinearGo, hm, if_true, if_false, Bool.false_eq_true,
            List.tail_cons, List.headD_cons]
          rw [ih _ _ _ _ _ _ hlen' hr']
          exact heapGet_set_ne h ref r _ hne

lemma linear_param_cons_fixed (flux fixed : List Bool) (hm : fixed.headD false = true)
    (d : PSDict) (ds : List PSDict) (q : ℚ) (hd : d.source_amp = some (.scalar q)) :
    linear_param_from_kwargs (true :: flux) fixed (d :: ds) =
      (linear_param_from_kwargs flux fixed.tail ds).map (fun t => q :: t) := by
  have hm2 : fixed.head?.getD false = true := by
    rw [← List.headD_eq_head?_getD]
    exact hm
  simp [linear_param_from_kwargs, hm2, hd]

lemma linear_param_cons_free (flux fixed : List Bool) (hm : fixed.headD false = false)
    (d : PSDict) (ds : List PSDict) (qs : List ℚ) (hd : d.point_amp = some (.arr qs)) :
    linear_param_from_kwargs (true :: flux) fixed (d :: ds) =
      (linear_param_from_kwargs flux fixed.tail ds).map (fun t => qs ++ t) := by
  have hm2 : fixed.head?.getD false = false := by
    rw [← List.headD_eq_head?_getD]
    exact hm
  simp [linear_param_from_kwargs, hm2, hd]

lemma linear_param_cons_off (flux fixed : List Bool) (d : PSDict) (ds : List PSDict) :
    linear_param_from_kwargs (false :: flux) fixed (d :: ds) =
      linear_param_from_kwargs flux fixed.tail ds := by
  simp [linear_param_from_kwargs]

lemma updateLinearGo_roundtrip (param : List ℚ) :
    ∀ (flux fixed : List Bool) (ras : List (List ℚ)) (refs : List Nat) (i : Nat) (h : Heap),
      refs.length = flux.length → refs.Nodup → (∀ r ∈ refs, r < h.length) →
      (updateLinearGo param flux fixed ras refs i h).1 ≤ param.length →
      linear_param_from_kwargs flux fixed
          (refs.map (heapGet (updateLinearGo param flux fixed ras refs i h).2)) =
        some ((param.drop i).take ((updateLinearGo param flux fixed ras refs i h).1 - i)) := by
  intro flux
  induction flux with
  | nil =>
    intro fixed ras refs i h hlen _ _ _
    have hrefs : refs = [] := List.length_eq_zero.mp (by simpa using hlen)
    subst hrefs
    simp [updateLinearGo, linear_param_from_kwargs]
  | cons f flux ih =>
    intro fixed ras refs i h hlen hnd hvalid hparam
    cases refs with
    | nil => simp at hlen
    | cons ref refs =>
      have hlen' : refs.length = flux.length := by simpa using hlen
      have hndh : ref ∉ refs := (List.nodup_cons.mp hnd).1
      have hnd' : refs.Nodup := (List.nodup_cons.mp hnd).2
      have hvr : ref < h.length := hvalid ref (List.mem_cons_self _ _)
      have hvalid' : ∀ r ∈ refs, r < h.length := fun r hr =>
        hvalid r (List.mem_cons_of_mem _ hr)
      cases f with
      | false =>
        have hstep : updateLinearGo param (false :: flux) fixed ras (ref :: refs) i h =
            updateLinearGo param flux fixed.tail ras.tail refs i h := by
          simp [updateLinearGo]
        rw [hstep] at hparam ⊢
        rw [List.map_cons, linear_param_cons_off]
        exact ih fixed.tail ras.tail refs i h hlen' hnd' hvalid' hparam
      | true =>
        by_cases hm : fixed.headD false
        · have hm2 : fixed.head?.getD false = true := by
            rw [← List.headD_eq_head?_getD]
            exact hm
          have hstep : updateLinearGo param (true :: flux) fixed ras (ref :: refs) i h =
              updateLinearGo param flux fixed.tail ras.tail refs (i + 1)
                (heapSet h ref
                  { heapGet h ref with source_amp := some (.scalar (param.getD i 0)) }) := by
            simp [updateLinearGo, hm2]
          rw [hstep] at hparam ⊢
          have hvalid₁ : ∀ r ∈ refs, r <
              (heapSet h ref
                { heapGet h ref with
                    source_amp := some (.scalar (param.getD i 0)) }).length := by
            intro r hr
            rw [heapSet_length]
            exact hvalid' r hr
          have hread : (heapGet (updateLinearGo param flux fixed.tail ras.tail refs (i + 1)
              (heapSet h ref
                { heapGet h ref with
                    source_amp := some (.scalar (param.getD i 0)) })).2 ref).source_amp =
              some (.scalar (param.getD i 0)) := by
            rw [updateLinearGo_frame param flux fixed.tail ras.tail refs (i + 1) _ ref
              hlen' hndh, heapGet_set_self h ref _ hvr]
          rw [List.map_cons, linear_param_cons_fixed flux fixed hm _ _ _ hread]
          rw [ih fixed.tail ras.tail refs (i + 1) _ hlen' hnd' hvalid₁ hparam]
          have hij : i + 1 ≤ (updateLinearGo param flux fixed.tail ras.tail refs (i + 1)
              (heapSet h ref
                { heapGet h ref with
                    source_amp := some (.scalar (param.getD i 0)) })).1 :=
            updateLinearGo_index_mono param flux fixed.tail ras.tail refs (i + 1) _
          rw [Option.map_some']
          set j := (updateLinearGo param flux fixed.tail ras.tail refs (i + 1)
            (heapSet h ref
              { heapGet h ref with
                  source_amp := some (.scalar (param.getD i 0)) })).1 with hj
          have hi : i < param.length := by omega
          congr 1
          rw [List.getD_eq_getElem param 0 hi, List.drop_eq_getElem_cons hi,
            show j - i = (j - (i + 1)) + 1 from by omega, List.take_succ_cons]
        · have hm' : fixed.headD false = false := by simpa using hm
          have hm2 : fixed.head?.getD false = false := by
            rw [← List.headD_eq_head?_getD]
            exact hm'
          have hstep : updateLinearGo param (true :: flux) fixed ras (ref :: refs) i h =
              updateLinearGo param flux fixed.tail ras.tail refs
                (i + (ras.headD []).length)
                (heapSet h ref
                  { heapGet h ref with
                      point_amp :=
                        some (.arr ((param.drop i).take (ras.headD []).length)) }) := by
            simp [updateLinearGo, hm2]
          rw [hstep] at hparam ⊢
          have hvalid₁ : ∀ r ∈ refs, r <
              (heapSet h ref
                { heapGet h ref with
                    point_amp :=
                      some (.arr ((param.drop i).take (ras.headD []).length)) }).length := by
            intro r hr
            rw [heapSet_length]
            exact hvalid' r hr
          have hread : (heapGet (updateLinearGo param flux fixed.tail ras.tail refs
              (i + (ras.headD []).length)
              (heapSet h ref
                { heapGet h ref with
                    point_amp :=
                      some (.arr ((param.drop i).take (ras.headD []).length)) })).2
              ref).point_amp =
              some (.arr ((param.drop i).take (ras.headD []).length)) := by
            rw [updateLinearGo_frame param flux fixed.tail ras.tail refs
              (i + (ras.headD []).length) _ ref hlen' hndh, heapGet_set_self h ref _ hvr]
          rw [List.map_cons, linear_param_cons_free flux fixed hm' _ _ _ hread]
          rw [ih fixed.tail ras.tail refs (i + (ras.headD []).length) _ hlen' hnd'
            hvalid₁ hparam]
          have hij : i + (ras.headD []).length ≤
              (updateLinearGo param flux fixed.tail ras.tail refs
                (i + (ras.headD []).length)
                (heapSet h ref
                  { heapGet h ref with
                      point_amp :=
                        some (.arr ((param.drop i).take (ras.headD []).length)) })).1 :=
            updateLinearGo_index_mono param flux fixed.tail ras.tail refs _ _
          rw [Option.map_some']
          set j := (updateLinearGo param flux fixed.tail ras.tail refs
            (i + (ras.headD []).length)
            (heapSet h ref
              { heapGet h ref with
                  point_amp :=
                    some (.arr ((param.drop i).take (ras.headD []).length)) })).1 with hj
          congr 1
          rw [show j - i = (ras.headD []).length + (j - (i + (ras.headD []).length))
              from by omega,
            List.take_add, List.drop_drop]

/-- C1: round-trip of the linear-parameter protocol: with
`(kwargs', j) := update_linear(param, i, ...)`, `linear_param_from_kwargs`
applied to the updated dictionaries recovers the slice `param[i..j-1]`
element for element, and `j - i` equals the sum over flux-enabled sources of
1 for a fixed-magnification source and the number of its solved images
otherwise (`ra_pos_list` is the per-source image-position list that
`image_position` reports; `linear_param_from_kwargs` does not call
`image_position`, it reads the written `point_amp` arrays back, so the
per-source counts agree by construction). -/
theorem update_linear_roundtrip (flux fixed : List Bool) (ra_pos_list : List (List ℚ))
    (param : List ℚ) (i : Nat) (kwargs_ps : List Nat) (h : Heap)
    (hlen : kwargs_ps.length = flux.length) (hnd : kwargs_ps.Nodup)
    (hvalid : ∀ r ∈ kwargs_ps, r < h.length)
    (hparam : (update_linear flux fixed ra_pos_list param i kwargs_ps h).1.2 ≤
      param.length) :
    linear_param_from_kwargs flux fixed
        ((update_linear flux fixed ra_pos_list param i kwargs_ps h).1.1.map
          (heapGet (update_linear flux fixed ra_pos_list param i kwargs_ps h).2)) =
      some ((param.drop i).take
        ((update_linear flux fixed ra_pos_list param i kwargs_ps h).1.2 - i)) ∧
    (update_linear flux fixed ra_pos_list param i kwargs_ps h).1.2 - i =
      ∑ k ∈ Finset.range flux.length,
        (if flux.getD k false then
          (if fixed.getD k false then 1 else (ra_pos_list.getD k []).length) else 0) := by
  constructor
  · exact updateLinearGo_roundtrip param flux fixed ra_pos_list kwargs_ps i h hlen hnd
      hvalid hparam
  · have heq := updateLinearGo_index_eq param flux fixed ra_pos_list kwargs_ps i h
    have h2 : (update_linear flux fixed ra_pos_list param i kwargs_ps h).1.2 =
        (updateLinearGo param flux fixed ra_pos_list kwargs_ps i h).1 := rfl
    rw [h2, heq]
    omega

/-- Witness for C1: three sources (fixed-magnification, free with two images,
flux-disabled), `param = [10, 20, 30, 40]`, start index 1. -/
theorem update_linear_roundtrip_witness :
    linear_param_from_kwargs [true, true, false] [true, false, true]
        ((update_linear [true, true, false] [true, false, true] [[5], [7, 8], [9]]
            [10, 20, 30, 40] 1 [0, 1, 2] (List.replicate 3 ({} : PSDict))).1.1.map
          (heapGet (update_linear [true, true, false] [true, false, true]
            [[5], [7, 8], [9]] [10, 20, 30, 40] 1 [0, 1, 2]
            (List.replicate 3 ({} : PSDict))).2)) =
      some ((([10, 20, 30, 40] : List ℚ).drop 1).take
        ((update_linear [true, true, false] [true, false, true] [[5], [7, 8], [9]]
            [10, 20, 30, 40] 1 [0, 1, 2] (List.replicate 3 ({} : PSDict))).1.2 - 1)) ∧
    (update_linear [true, true, false] [true, false, true] [[5], [7, 8], [9]]
        [10, 20, 30, 40] 1 [0, 1, 2] (List.replicate 3 ({} : PSDict))).1.2 - 1 =
      ∑ k ∈ Finset.range ([true, true, false] : List Bool).length,
        (if ([true, true, false] : List Bool).getD k false then
          (if ([true, false, true] : List Bool).getD k false then 1
           else (([[5], [7, 8], [9]] : List (List ℚ)).getD k []).length) else 0) :=
  update_linear_roundtrip [true, true, false] [true, false, true] [[5], [7, 8], [9]]
    [10, 20, 30, 40] 1 [0, 1, 2] (List.replicate 3 ({} : PSDict)) rfl (by decide)
    (by decide) (by decide)

lemma updateLinearGo_entry (param : List ℚ) :
    ∀ (flux fixed : List Bool) (ras : List (List ℚ)) (refs : List Nat) (i : Nat)
      (h : Heap) (k : Nat), refs.length = flux.length → refs.Nodup →
      (∀ r ∈ refs, r < h.length) → k < flux.length →
      (flux.getD k false = false →
        heapGet (updateLinearGo param flux fixed ras refs i h).2 (refs.getD k 0) =
          heapGet h (refs.getD k 0)) ∧
      (flux.getD k false = true →
        (heapGet (updateLinearGo param flux fixed ras refs i h).2 (refs.getD k 0)).rest =
          (heapGet h (refs.getD k 0)).rest ∧
        (fixed.getD k false = true →
          (heapGet (updateLinearGo param flux fixed ras refs i h).2
              (refs.getD k 0)).point_amp =
            (heapGet h (refs.getD k 0)).point_amp ∧
          ∃ q, (heapGet (updateLinearGo param flux fixed ras refs i h).2
              (refs.getD k 0)).source_amp = some (.scalar q)) ∧
        (fixed.getD k false = false →
          (heapGet (updateLinearGo param flux fixed ras refs i h).2
              (refs.getD k 0)).source_amp =
            (heapGet h (refs.getD k 0)).source_amp ∧
          ∃ qs, (heapGet (updateLinearGo param flux fixed ras refs i h).2
              (refs.getD k 0)).point_amp = some (.arr qs))) := by
  intro flux
  induction flux with
  | nil => intro fixed ras refs i h k _ _ _ hk; simp at hk
  | cons f flux ih =>
    intro fixed ras refs i h k hlen hnd hvalid hk
    cases refs with
    | nil => simp at hlen
    | cons ref refs =>
      have hlen' : refs.length = flux.length := by simpa using hlen
      have hndh : ref ∉ refs := (List.nodup_cons.mp hnd).1
      have hnd' : refs.Nodup := (List.nodup_cons.mp hnd).2
      have hvr : ref < h.length := hvalid ref (List.mem_cons_self _ _)
      have hvalid' : ∀ r ∈ refs, r < h.length := fun r hr =>
        hvalid r (List.mem_cons_of_mem _ hr)
      cases k with
      | zero =>
        simp only [List.getD_cons_zero]
        cases f with
        | false =>
          have hstep : updateLinearGo param (false :: flux) fixed ras (ref :: refs) i h =
              updateLinearGo param flux fixed.tail ras.tail refs i h := by
            simp [updateLinearGo]
          rw [hstep]
          have hfr : heapGet (updateLinearGo param flux fixed.tail ras.tail refs i h).2
              ref = heapGet h ref :=
            updateLinearGo_frame param flux fixed.tail ras.tail refs i h ref hlen' hndh
          exact ⟨fun _ => hfr, fun habs => by cases habs⟩
        | true =>
          by_cases hm : fixed.headD false
          · have hm2 : fixed.head?.getD false = true := by
              rw [← List.headD_eq_head?_getD]
              exact hm
            have hstep : updateLinearGo param (true :: flux) fixed ras (ref :: refs) i h =
                updateLinearGo param flux fixed.tail ras.tail refs (i + 1)
                  (heapSet h ref
                    { heapGet h ref with
                        source_amp := some (.scalar (param.getD i 0)) }) := by
              simp [updateLinearGo, hm2]
            rw [hstep]
            have hrd : heapGet (updateLinearGo param flux fixed.tail ras.tail refs (i + 1)
                (heapSet h ref
                  { heapGet h ref with
                      source_amp := some (.scalar (param.getD i 0)) })).2 ref =
                { heapGet h ref with source_amp := some (.scalar (param.getD i 0)) } := by
              rw [updateLinearGo_frame param flux fixed.tail ras.tail refs (i + 1) _ ref
                hlen' hndh]
              exact heapGet_set_self h ref _ hvr
            rw [hrd]
            constructor
            · intro habs
              cases habs
            · intro _
              refine ⟨rfl, fun _ => ⟨rfl, ⟨_, rfl⟩⟩, fun habs => ?_⟩
              rw [getD_zero_headD] at habs
              rw [habs] at hm
              cases hm
          · have hm' : fixed.headD false = false := by simpa using hm
            have hm2 : fixed.head?.getD false = false := by
              rw [← List.headD_eq_head?_getD]
              exact hm'
            have hstep : updateLinearGo param (true :: flux) fixed ras (ref :: refs) i h =
                updateLinearGo param flux fixed.tail ras.tail refs
                  (i + (ras.headD []).length)
                  (heapSet h ref
                    { heapGet h ref with
                        point_amp :=
                          some (.arr ((param.drop i).take (ras.headD []).length)) }) := by
              simp [updateLinearGo, hm2]
            rw [hstep]
            have hrd : heapGet (updateLinearGo param flux fixed.tail ras.tail refs
                (i + (ras.headD []).length)
                (heapSet h ref
                  { heapGet h ref with
                      point_amp :=
                        some (.arr ((param.drop i).take (ras.headD []).length)) })).2
                ref =
                { heapGet h ref with
                    point_amp :=
                      some (.arr ((param.drop i).take (ras.headD []).length)) } := by
              rw [updateLinearGo_frame param flux fixed.tail ras.tail refs
                (i + (ras.headD []).length) _ ref hlen' hndh]
              exact heapGet_set_self h ref _ hvr
            rw [hrd]
            constructor
            · intro habs
              cases habs
            · intro _
              refine ⟨rfl, fun habs => ?_, fun _ => ⟨rfl, ⟨_, rfl⟩⟩⟩
              rw [getD_zero_headD, hm'] at habs
              cases habs
      | succ k =>
        have hk' : k < flux.length := by simpa using hk
        have hkr : k < refs.length := by omega
        have hrk_mem : refs.getD k 0 ∈ refs := by
          rw [List.getD_eq_getElem refs 0 hkr]
          exact List.getElem_mem hkr
        have hne : ref ≠ refs.getD k 0 := fun he => hndh (he ▸ hrk_mem)
        simp only [List.getD_cons_succ, getD_succ_tail]
        cases f with
        | false =>
          have hstep : updateLinearGo param (false :: flux) fixed ras (ref :: refs) i h =
              updateLinearGo param flux fixed.tail ras.tail refs i h := by
            simp [updateLinearGo]
          rw [hstep]
          exact ih fixed.tail ras.tail refs i h k hlen' hnd' hvalid' hk'
        | true =>
          by_cases hm : fixed.headD false
          · have hm2 : fixed.head?.getD false = true := by
              rw [← List.headD_eq_head?_getD]
              exact hm
            have hstep : updateLinearGo param (true :: flux) fixed ras (ref :: refs) i h =
                updateLinearGo param flux fixed.tail ras.tail refs (i + 1)
                  (heapSet h ref
                    { heapGet h ref with
                        source_amp := some (.scalar (param.getD i 0)) }) := by
              simp [updateLinearGo, hm2]
            rw [hstep]
            have hvalid₁ : ∀ r ∈ refs, r <
                (heapSet h ref
                  { heapGet h ref with
                      source_amp := some (.scalar (param.getD i 0)) }).length := by
              intro r hr
              rw [heapSet_length]
              exact hvalid' r hr
            have hbase : heapGet (heapSet h ref
                { heapGet h ref with source_amp := some (.scalar (param.getD i 0)) })
                (refs.getD k 0) = heapGet h (refs.getD k 0) :=
              heapGet_set_ne h ref _ _ hne
            have ihk := ih fixed.tail ras.tail refs (i + 1)
              (heapSet h ref
                { heapGet h ref with source_amp := some (.scalar (param.getD i 0)) })
              k hlen' hnd' hvalid₁ hk'
            rw [hbase] at ihk
            exact ihk
          · have hm' : fixed.headD false = false := by simpa using hm
            have hm2 : fixed.head?.getD false = false := by
              rw [← List.headD_eq_head?_getD]
              exact hm'
            have hstep : updateLinearGo param (true :: flux) fixed ras (ref :: refs) i h =
                updateLinearGo param flux fixed.tail ras.tail refs
                  (i + (ras.headD []).length)
                  (heapSet h ref
                    { heapGet h ref with
                        point_amp :=
                          some (.arr ((param.drop i).take (ras.headD []).length)) }) := by
              simp [updateLinearGo, hm2]
            rw [hstep]
            have hvalid₁ : ∀ r ∈ refs, r <
                (heapSet h ref
                  { heapGet h ref with
                      point_amp :=
                        some (.arr ((param.drop i).take (ras.headD []).length)) }).length := by
              intro r hr
              rw [heapSet_length]
              exact hvalid' r hr
            have hbase : heapGet (heapSet h ref
                { heapGet h ref with
                    point_amp :=
                      some (.arr ((param.drop i).take (ras.headD []).length)) })
                (refs.getD k 0) = heapGet h (refs.getD k 0) :=
              heapGet_set_ne h ref _ _ hne
            have ihk := ih fixed.tail ras.tail refs (i + (ras.headD []).length)
              (heapSet h ref
                { heapGet h ref with
                    point_amp :=
                      some (.arr ((param.drop i).take (ras.headD []).length)) })
              k hlen' hnd' hvalid₁ hk'
            rw [hbase] at ihk
            exact ihk

/-- C10: `update_linear` mutates its input in place: it returns the very
reference list it was given (no copy is made — unlike `set_amplitudes`,
which deep-copies), every dictionary object not referenced by `kwargs_ps` is
untouched, every flux-disabled entry is untouched, and a flux-enabled entry
has exactly its `source_amp` key (fixed magnification) or `point_amp` key
(otherwise) overwritten, with every other key unchanged. -/
theorem update_linear_in_place (flux fixed : List Bool) (ra_pos_list : List (List ℚ))
    (param : List ℚ) (i : Nat) (kwargs_ps : List Nat) (h : Heap)
    (hlen : kwargs_ps.length = flux.length) (hnd : kwargs_ps.Nodup)
    (hvalid : ∀ r ∈ kwargs_ps, r < h.length) :
    (update_linear flux fixed ra_pos_list param i kwargs_ps h).1.1 = kwargs_ps ∧
    (∀ r, r ∉ kwargs_ps →
      heapGet (update_linear flux fixed ra_pos_list param i kwargs_ps h).2 r =
        heapGet h r) ∧
    (∀ k, k < flux.length →
      (flux.getD k false = false →
        heapGet (update_linear flux fixed ra_pos_list param i kwargs_ps h).2
            (kwargs_ps.getD k 0) =
          heapGet h (kwargs_ps.getD k 0)) ∧
      (flux.getD k false = true →
        (heapGet (update_linear flux fixed ra_pos_list param i kwargs_ps h).2
            (kwargs_ps.getD k 0)).rest =
          (heapGet h (kwargs_ps.getD k 0)).rest ∧
        (fixed.getD k false = true →
          (heapGet (update_linear flux fixed ra_pos_list param i kwargs_ps h).2
              (kwargs_ps.getD k 0)).point_amp =
            (heapGet h (kwargs_ps.getD k 0)).point_amp ∧
          ∃ q, (heapGet (update_linear flux fixed ra_pos_list param i kwargs_ps h).2
              (kwargs_ps.getD k 0)).source_amp = some (.scalar q)) ∧
        (fixed.getD k false = false →
          (heapGet (update_linear flux fixed ra_pos_list param i kwargs_ps h).2
              (kwargs_ps.getD k 0)).source_amp =
            (heapGet h (kwargs_ps.getD k 0)).source_amp ∧
          ∃ qs, (heapGet (update_linear flux fixed ra_pos_list param i kwargs_ps h).2
              (kwargs_ps.getD k 0)).point_amp = some (.arr qs)))) :=
  ⟨rfl,
   fun r hr => updateLinearGo_frame param flux fixed ra_pos_list kwargs_ps i h r hlen hr,
   fun k hk =>
     updateLinearGo_entry param flux fixed ra_pos_list kwargs_ps i h k hlen hnd hvalid hk⟩

/-- Witness for C10: two sources (fixed-magnification flux-enabled,
flux-disabled), checking the returned list is the input list, an unrelated
reference is untouched, the first entry keeps its other keys, and the second
entry is untouched. -/
theorem update_linear_in_place_witness :
    (update_linear [true, false] [true, false] [[5], [7]] [10, 20] 0 [0, 1]
        (List.replicate 2 ({} : PSDict))).1.1 = [0, 1] ∧
    heapGet (update_linear [true, false] [true, false] [[5], [7]] [10, 20] 0 [0, 1]
        (List.replicate 2 ({} : PSDict))).2 5 =
      heapGet (List.replicate 2 ({} : PSDict)) 5 ∧
    (heapGet (update_linear [true, false] [true, false] [[5], [7]] [10, 20] 0 [0, 1]
        (List.replicate 2 ({} : PSDict))).2 (([0, 1] : List Nat).getD 0 0)).rest =
      (heapGet (List.replicate 2 ({} : PSDict)) (([0, 1] : List Nat).getD 0 0)).rest ∧
    heapGet (update_linear [true, false] [true, false] [[5], [7]] [10, 20] 0 [0, 1]
        (List.replicate 2 ({} : PSDict))).2 (([0, 1] : List Nat).getD 1 0) =
      heapGet (List.replicate 2 ({} : PSDict)) (([0, 1] : List Nat).getD 1 0) := by
  have T := update_linear_in_place [true, false] [true, false] [[5], [7]] [10, 20] 0
    [0, 1] (List.replicate 2 ({} : PSDict)) rfl (by decide) (by decide)
  exact ⟨T.1, T.2.1 5 (by decide), ((T.2.2 0 (by decide)).2 rfl).1,
    (T.2.2 1 (by decide)).1 rfl⟩

lemma setAmpStep_length (t : String) (f m : Bool) (amp : AmpVal) (ref : Nat) (h : Heap) :
    (setAmpStep t f m amp ref h).length = h.length := by
  unfold setAmpStep
  split_ifs <;> simp [heapSet_length]

lemma setAmpStep_frame (t : String) (f m : Bool) (amp : AmpVal) (ref : Nat) (h : Heap)
    (r : Nat) (hne : ref ≠ r) :
    heapGet (setAmpStep t f m amp ref h) r = heapGet h r := by
  unfold setAmpStep
  split_ifs <;> first | rfl | exact heapGet_set_ne h ref r _ hne

lemma setAmpStep_get_self (t : String) (f m : Bool) (amp : AmpVal) (ref : Nat) (h : Heap)
    (hr : ref < h.length) :
    heapGet (setAmpStep t f m amp ref h) ref =
      (if f then
        if t = "UNLENSED" then { heapGet h ref with point_amp := some amp }
        else if t ∈ (["LENSED_POSITION", "SOURCE_POSITION"] : List String) then
          (if m then { heapGet h ref with source_amp := some amp }
           else { heapGet h ref with point_amp := some amp })
        else heapGet h ref
      else heapGet h ref) := by
  unfold setAmpStep
  split_ifs <;> first | rfl | exact heapGet_set_self h ref _ hr

lemma setAmplitudesGo_frame :
    ∀ (types : List String) (flux fixed : List Bool) (amps : List AmpVal)
      (refs : List Nat) (h : Heap) (r : Nat), refs.length = types.length → r ∉ refs →
      heapGet (setAmplitudesGo types flux fixed amps refs h) r = heapGet h r := by
  intro types
  induction types with
  | nil => intro flux fixed amps refs h r _ _; rfl
  | cons t types ih =>
    intro flux fixed amps refs h r hlen hr
    cases refs with
    | nil => simp at hlen
    | cons ref refs =>
      have hne : ref ≠ r := fun he => hr (he ▸ List.mem_cons_self _ _)
      have hr' : r ∉ refs := fun hmem => hr (List.mem_cons_of_mem _ hmem)
      have hlen' : refs.length = types.length := by simpa using hlen
      simp only [setAmplitudesGo, List.headD_cons, List.tail_cons]
      rw [ih flux.tail fixed.tail amps.tail refs _ r hlen' hr']
      exact setAmpStep_frame _ _ _ _ _ _ _ hne

lemma setAmplitudesGo_entry :
    ∀ (types : List String) (flux fixed : List Bool) (amps : List AmpVal)
      (refs : List Nat) (h : Heap) (k : Nat),
      refs.length = types.length → refs.Nodup → (∀ r ∈ refs, r < h.length) →
      k < types.length →
      heapGet (setAmplitudesGo types flux fixed amps refs h) (refs.getD k 0) =
        (if flux.getD k false then
          if types.getD k "" = "UNLENSED" then
            { heapGet h (refs.getD k 0) with
                point_amp := some (amps.getD k (.scalar 0)) }
          else if types.getD k "" ∈ (["LENSED_POSITION", "SOURCE_POSITION"] : List String) then
            (if fixed.getD k false then
              { heapGet h (refs.getD k 0) with
                  source_amp := some (amps.getD k (.scalar 0)) }
             else
              { heapGet h (refs.getD k 0) with
                  point_amp := some (amps.getD k (.scalar 0)) })
          else heapGet h (refs.getD k 0)
        else heapGet h (refs.getD k 0)) := by
  intro types
  induction types with
  | nil => intro flux fixed amps refs h k _ _ _ hk; simp at hk
  | cons t types ih =>
    intro flux fixed amps refs h k hlen hnd hvalid hk
    cases refs with
    | nil => simp at hlen
    | cons ref refs =>
      have hlen' : refs.length = types.length := by simpa using hlen
      have hndh : ref ∉ refs := (List.nodup_cons.mp hnd).1
      have hnd' : refs.Nodup := (List.nodup_cons.mp hnd).2
      have hvr : ref < h.length := hvalid ref (List.mem_cons_self _ _)
      have hvalid' : ∀ r ∈ refs, r < h.length := fun r hr =>
        hvalid r (List.mem_cons_of_mem _ hr)
      cases k with
      | zero =>
        simp only [List.getD_cons_zero, getD_zero_headD, setAmplitudesGo,
          List.headD_cons, List.tail_cons]
        rw [setAmplitudesGo_frame types flux.tail fixed.tail amps.tail refs _ ref
          hlen' hndh]
        exact setAmpStep_get_self t (flux.headD false) (fixed.headD false)
          (amps.headD (.scalar 0)) ref h hvr
      | succ k =>
        have hk' : k < types.length := by simpa using hk
        have hkr : k < refs.length := by omega
        have hrk_mem : refs.getD k 0 ∈ refs := by
          rw [List.getD_eq_getElem refs 0 hkr]
          exact List.getElem_mem hkr
        have hne : ref ≠ refs.getD k 0 := fun he => hndh (he ▸ hrk_mem)
        simp only [List.getD_cons_succ, getD_succ_tail, setAmplitudesGo,
          List.headD_cons, List.tail_cons]
        have hvalid₁ : ∀ r ∈ refs, r <
            (setAmpStep t (flux.headD false) (fixed.headD false)
              (amps.headD (.scalar 0)) ref h).length := by
          intro r hr
          rw [setAmpStep_length]
          exact hvalid' r hr
        have hbase : heapGet (setAmpStep t (flux.headD false) (fixed.headD false)
            (amps.headD (.scalar 0)) ref h) (refs.getD k 0) = heapGet h (refs.getD k 0) :=
          setAmpStep_frame _ _ _ _ _ _ _ hne
        have ihk := ih flux.tail fixed.tail amps.tail refs
          (setAmpStep t (flux.headD false) (fixed.headD false)
            (amps.headD (.scalar 0)) ref h) k hlen' hnd' hvalid₁ hk'
        rw [hbase] at ihk
        exact ihk

/-- C9: `set_amplitudes` returns a deep-copied list (fresh dictionary
objects, the input heap — in particular every input dictionary — is left
unmodified); in the copy, for every flux-enabled source the amplitude is
written to `point_amp` when the type is UNLENSED or the magnification is not
fixed, and to `source_amp` when the type is LENSED_POSITION or
SOURCE_POSITION with fixed magnification; every other key of every entry,
and every flux-disabled entry, equals the corresponding input value. -/
theorem set_amplitudes_spec (types : List String) (flux fixed : List Bool)
    (amp_list : List AmpVal) (kwargs_ps : List Nat) (h : Heap)
    (htypes : ∀ t ∈ types, t ∈ SUPPORTED_MODELS)
    (hrefs : kwargs_ps.length = types.length)
    (hnd : kwargs_ps.Nodup) (hvalid : ∀ r ∈ kwargs_ps, r < h.length) :
    (∀ r, r < h.length →
      heapGet (set_amplitudes types flux fixed amp_list kwargs_ps h).2 r = heapGet h r) ∧
    (∀ r ∈ (set_amplitudes types flux fixed amp_list kwargs_ps h).1, h.length ≤ r) ∧
    (set_amplitudes types flux fixed amp_list kwargs_ps h).1.length = kwargs_ps.length ∧
    (∀ k, k < types.length →
      (flux.getD k false = true →
        ((types.getD k "" = "UNLENSED" ∨ fixed.getD k false = false) →
          heapGet (set_amplitudes types flux fixed amp_list kwargs_ps h).2
              ((set_amplitudes types flux fixed amp_list kwargs_ps h).1.getD k 0) =
            { heapGet h (kwargs_ps.getD k 0) with
                point_amp := some (amp_list.getD k (.scalar 0)) }) ∧
        ((types.getD k "" = "LENSED_POSITION" ∨ types.getD k "" = "SOURCE_POSITION") ∧
            fixed.getD k false = true →
          heapGet (set_amplitudes types flux fixed amp_list kwargs_ps h).2
              ((set_amplitudes types flux fixed amp_list kwargs_ps h).1.getD k 0) =
            { heapGet h (kwargs_ps.getD k 0) with
                source_amp := some (amp_list.getD k (.scalar 0)) })) ∧
      (flux.getD k false = false →
        heapGet (set_amplitudes types flux fixed amp_list kwargs_ps h).2
            ((set_amplitudes types flux fixed amp_list kwargs_ps h).1.getD k 0) =
          heapGet h (kwargs_ps.getD k 0))) := by
  have hfreshlen : (List.range' h.length kwargs_ps.length).length = types.length := by
    rw [List.length_range']
    exact hrefs
  have hfreshnd : (List.range' h.length kwargs_ps.length).Nodup := List.nodup_range' _ _
  have h1len : (h ++ kwargs_ps.map (heapGet h)).length = h.length + kwargs_ps.length := by
    simp
  have hfreshvalid : ∀ r ∈ List.range' h.length kwargs_ps.length,
      r < (h ++ kwargs_ps.map (heapGet h)).length := by
    intro r hr
    rw [h1len]
    exact (List.mem_range'_1.mp hr).2
  refine ⟨?_, ?_, ?_, ?_⟩
  · intro r hrlt
    have hnot : r ∉ List.range' h.length kwargs_ps.length := by
      intro hmem
      have := (List.mem_range'_1.mp hmem).1
      omega
    show heapGet (setAmplitudesGo types flux fixed amp_list
        (List.range' h.length kwargs_ps.length) (h ++ kwargs_ps.map (heapGet h))) r =
      heapGet h r
    rw [setAmplitudesGo_frame types flux fixed amp_list _ _ r hfreshlen hnot]
    unfold heapGet
    exact List.getD_append h _ _ r hrlt
  · intro r hmem
    exact (List.mem_range'_1.mp hmem).1
  · show (List.range' h.length kwargs_ps.length).length = kwargs_ps.length
    exact List.length_range' _ _ _
  · intro k hk
    have hkk : k < kwargs_ps.length := by omega
    have hmem : types.getD k "" ∈ types := by
      rw [List.getD_eq_getElem _ _ hk]
      exact List.getElem_mem hk
    have hsup := htypes _ hmem
    have hfreshk : (List.range' h.length kwargs_ps.length).getD k 0 = h.length + k := by
      rw [List.getD_eq_getElem _ _ (by rw [List.length_range']; omega),
        List.getElem_range']
      simp
    have hbasek : heapGet (h ++ kwargs_ps.map (heapGet h)) (h.length + k) =
        heapGet h (kwargs_ps.getD k 0) := by
      unfold heapGet
      rw [List.getD_append_right _ _ _ _ (by omega)]
      have hsub : h.length + k - h.length = k := by omega
      rw [hsub, List.getD_eq_getElem _ _ (by simpa using hkk), List.getElem_map,
        List.getD_eq_getElem _ _ hkk]
    have hent := setAmplitudesGo_entry types flux fixed amp_list
      (List.range' h.length kwargs_ps.length) (h ++ kwargs_ps.map (heapGet h)) k
      hfreshlen hfreshnd hfreshvalid hk
    rw [hfreshk, hbasek] at hent
    have hshow : heapGet (set_amplitudes types flux fixed amp_list kwargs_ps h).2
        ((set_amplitudes types flux fixed amp_list kwargs_ps h).1.getD k 0) =
        heapGet (setAmplitudesGo types flux fixed amp_list
          (List.range' h.length kwargs_ps.length) (h ++ kwargs_ps.map (heapGet h)))
          (h.length + k) := by
      show heapGet _ ((List.range' h.length kwargs_ps.length).getD k 0) = _
      rw [hfreshk]
      rfl
    rw [hshow, hent]
    refine ⟨fun hfl => ?_, fun hfl => ?_⟩
    · rw [if_pos hfl]
      constructor
      · intro hcase
        by_cases hU : types.getD k "" = "UNLENSED"
        · rw [if_pos hU]
        · have hfree : fixed.getD k false = false := hcase.resolve_left hU
          have hLS : types.getD k "" ∈
              (["LENSED_POSITION", "SOURCE_POSITION"] : List String) := by
            have hsup' := hsup
            simp [SUPPORTED_MODELS] at hsup'
            simp only [← List.getD_eq_getElem?_getD] at hsup'
            rcases hsup' with hs | hs | hs
            · exact absurd hs hU
            · rw [hs]
              simp
            · rw [hs]
              simp
          rw [if_neg hU, if_pos hLS, if_neg (by rw [hfree]; exact Bool.false_ne_true)]
      · rintro ⟨hLS', hfix'⟩
        have hU : ¬types.getD k "" = "UNLENSED" := by
          rcases hLS' with hs | hs <;> rw [hs] <;> decide
        have hLS : types.getD k "" ∈
            (["LENSED_POSITION", "SOURCE_POSITION"] : List String) := by
          rcases hLS' with hs | hs <;> rw [hs] <;> simp
        rw [if_neg hU, if_pos hLS, if_pos hfix']
    · rw [if_neg (by rw [hfl]; exact Bool.false_ne_true)]

/-- Witness for C9: three sources, one of each type, the middle one
flux-disabled: the input heap entry 0 is preserved, the returned list has
the input's length, and the first copied entry has its `point_amp`
overwritten. -/
theorem set_amplitudes_spec_witness :
    heapGet (set_amplitudes ["UNLENSED", "LENSED_POSITION", "SOURCE_POSITION"]
        [true, false, true] [false, false, true] [.arr [1], .scalar 2, .scalar 3]
        [0, 1, 2] (List.replicate 3 ({} : PSDict))).2 0 =
      heapGet (List.replicate 3 ({} : PSDict)) 0 ∧
    (set_amplitudes ["UNLENSED", "LENSED_POSITION", "SOURCE_POSITION"]
        [true, false, true] [false, false, true] [.arr [1], .scalar 2, .scalar 3]
        [0, 1, 2] (List.replicate 3 ({} : PSDict))).1.length =
      ([0, 1, 2] : List Nat).length ∧
    heapGet (set_amplitudes ["UNLENSED", "LENSED_POSITION", "SOURCE_POSITION"]
        [true, false, true] [false, false, true] [.arr [1], .scalar 2, .scalar 3]
        [0, 1, 2] (List.replicate 3 ({} : PSDict))).2
        ((set_amplitudes ["UNLENSED", "LENSED_POSITION", "SOURCE_POSITION"]
          [true, false, true] [false, false, true] [.arr [1], .scalar 2, .scalar 3]
          [0, 1, 2] (List.replicate 3 ({} : PSDict))).1.getD 0 0) =
      { heapGet (List.replicate 3 ({} : PSDict)) (([0, 1, 2] : List Nat).getD 0 0) with
          point_amp :=
            some (([.arr [1], .scalar 2, .scalar 3] : List AmpVal).getD 0 (.scalar 0)) } := by
  have T := set_amplitudes_spec ["UNLENSED", "LENSED_POSITION", "SOURCE_POSITION"]
    [true, false, true] [false, false, true] [.arr [1], .scalar 2, .scalar 3]
    [0, 1, 2] (List.replicate 3 ({} : PSDict)) (by decide) rfl (by decide) (by decide)
  exact ⟨T.1 0 (by decide), T.2.2.1,
    ((T.2.2.2 0 (by decide)).1 rfl).1 (Or.inl rfl)⟩

lemma buildModelHead_unlensed (fm ai : List Bool) (index : Option (List (List Nat)))
    (frame : Option (List (Option (List Nat)))) (zs : List (Option ℚ)) (sc : Bool)
    (i : Nat) :
    buildModelHead fm ai index frame zs sc "UNLENSED" i = .ok ⟨.unlensed, sc⟩ := rfl

lemma buildModelHead_lensed (fm ai : List Bool) (index : Option (List (List Nat)))
    (fl : List (Option (List Nat))) (zs : List (Option ℚ)) (sc : Bool) (i : Nat)
    (h1 : i < fm.length) (h2 : i < ai.length) (h3 : i < fl.length) (h4 : i < zs.length) :
    buildModelHead fm ai index (some fl) zs sc "LENSED_POSITION" i =
      .ok ⟨.lensedPositions (fm.get ⟨i, h1⟩) (ai.get ⟨i, h2⟩) index (fl.get ⟨i, h3⟩)
        (zs.get ⟨i, h4⟩), sc⟩ := by
  simp [buildModelHead, listGetE, h1, h2, h3, h4]

lemma buildModelHead_source (fm ai : List Bool) (index : Option (List (List Nat)))
    (frame : Option (List (Option (List Nat)))) (zs : List (Option ℚ)) (sc : Bool)
    (i : Nat) (h1 : i < fm.length) (h4 : i < zs.length) :
    buildModelHead fm ai index frame zs sc "SOURCE_POSITION" i =
      .ok ⟨.sourcePositions (fm.get ⟨i, h1⟩) (zs.get ⟨i, h4⟩), sc⟩ := by
  simp [buildModelHead, listGetE, h1, h4]

lemma buildModelHead_unsupported (fm ai : List Bool) (index : Option (List (List Nat)))
    (frame : Option (List (Option (List Nat)))) (zs : List (Option ℚ)) (sc : Bool)
    (t : String) (i : Nat) (hu : t ∉ SUPPORTED_MODELS) :
    buildModelHead fm ai index frame zs sc t i = .error .valueError := by
  simp [SUPPORTED_MODELS] at hu
  simp [buildModelHead, hu.1, hu.2.1, hu.2.2]

lemma buildModels_ok (fm ai : List Bool) (index : Option (List (List Nat)))
    (frame : Option (List (Option (List Nat)))) (zs : List (Option ℚ)) (sc : Bool) :
    ∀ (ts : List String) (i : Nat),
      (∀ t ∈ ts, t ∈ SUPPORTED_MODELS) →
      i + ts.length ≤ fm.length → i + ts.length ≤ ai.length → i + ts.length ≤ zs.length →
      ("LENSED_POSITION" ∈ ts → ∃ fl, frame = some fl ∧ i + ts.length ≤ fl.length) →
      ∃ ms, buildModels fm ai index frame zs sc ts i = .ok ms ∧
        ms.length = ts.length ∧
        (∀ k, k < ts.length →
          modelType (ms.getD k ⟨.unlensed, false⟩) = ts.getD k "" ∧
          (ms.getD k ⟨.unlensed, false⟩).save_cache = sc) := by
  intro ts
  induction ts with
  | nil =>
    intro i _ _ _ _ _
    exact ⟨[], rfl, rfl, fun k hk => absurd hk (by simp)⟩
  | cons t ts ih =>
    intro i hsup hfm hai hzs hframe
    have hsup_t := hsup t (List.mem_cons_self _ _)
    have hsup' : ∀ x ∈ ts, x ∈ SUPPORTED_MODELS := fun x hx =>
      hsup x (List.mem_cons_of_mem _ hx)
    simp only [List.length_cons] at hfm hai hzs
    have hfm' : i + 1 + ts.length ≤ fm.length := by omega
    have hai' : i + 1 + ts.length ≤ ai.length := by omega
    have hzs' : i + 1 + ts.length ≤ zs.length := by omega
    have hframe' : "LENSED_POSITION" ∈ ts →
        ∃ fl, frame = some fl ∧ i + 1 + ts.length ≤ fl.length := by
      intro hmem
      obtain ⟨fl, he, hle⟩ := hframe (List.mem_cons_of_mem _ hmem)
      simp only [List.length_cons] at hle
      exact ⟨fl, he, by omega⟩
    obtain ⟨ms, hms, hlen, hmt⟩ := ih (i + 1) hsup' hfm' hai' hzs' hframe'
    have hi_fm : i < fm.length := by omega
    have hi_ai : i < ai.length := by omega
    have hi_zs : i < zs.length := by omega
    have htail : ∀ (c : PointSourceCached), modelType c = t → c.save_cache = sc →
        ∀ k, k < (t :: ts).length →
          modelType ((c :: ms).getD k ⟨.unlensed, false⟩) = (t :: ts).getD k "" ∧
          ((c :: ms).getD k ⟨.unlensed, false⟩).save_cache = sc := by
      intro c hc hcs k hk
      cases k with
      | zero => exact ⟨hc, hcs⟩
      | succ k =>
        have := hmt k (by simpa using hk)
        simpa [List.getD_cons_succ] using this
    simp only [SUPPORTED_MODELS, List.mem_cons, List.mem_singleton] at hsup_t
    have hsup_t' : t = "UNLENSED" ∨ t = "LENSED_POSITION" ∨ t = "SOURCE_POSITION" := by
      rcases hsup_t with h | h | h
      · exact Or.inl h
      · exact Or.inr (Or.inl h)
      · rcases h with h | h
        · exact Or.inr (Or.inr h)
        · simp at h
    rcases hsup_t' with rfl | rfl | rfl
    · refine ⟨⟨.unlensed, sc⟩ :: ms, ?_, by simp [hlen], htail _ rfl rfl⟩
      rw [show buildModels fm ai index frame zs sc ("UNLENSED" :: ts) i =
          match buildModelHead fm ai index frame zs sc "UNLENSED" i with
          | .error e => .error e
          | .ok c =>
            match buildModels fm ai index frame zs sc ts (i + 1) with
            | .error e => .error e
            | .ok cs => .ok (c :: cs) from rfl,
        buildModelHead_unlensed, hms]
    · obtain ⟨fl, hfe, hfl_len⟩ := hframe (List.mem_cons_self _ _)
      simp only [List.length_cons] at hfl_len
      have hi_fl : i < fl.length := by omega
      subst hfe
      refine ⟨⟨.lensedPositions (fm.get ⟨i, hi_fm⟩) (ai.get ⟨i, hi_ai⟩) index
        (fl.get ⟨i, hi_fl⟩) (zs.get ⟨i, hi_zs⟩), sc⟩ :: ms, ?_, by simp [hlen],
        htail _ rfl rfl⟩
      rw [show buildModels fm ai index (some fl) zs sc ("LENSED_POSITION" :: ts) i =
          match buildModelHead fm ai index (some fl) zs sc "LENSED_POSITION" i with
          | .error e => .error e
          | .ok c =>
            match buildModels fm ai index (some fl) zs sc ts (i + 1) with
            | .error e => .error e
            | .ok cs => .ok (c :: cs) from rfl,
        buildModelHead_lensed fm ai index fl zs sc i hi_fm hi_ai hi_fl hi_zs, hms]
    · refine ⟨⟨.sourcePositions (fm.get ⟨i, hi_fm⟩) (zs.get ⟨i, hi_zs⟩), sc⟩ :: ms,
        ?_, by simp [hlen], htail _ rfl rfl⟩
      rw [show buildModels fm ai index frame zs sc ("SOURCE_POSITION" :: ts) i =
          match buildModelHead fm ai index frame zs sc "SOURCE_POSITION" i with
          | .error e => .error e
          | .ok c =>
            match buildModels fm ai index frame zs sc ts (i + 1) with
            | .error e => .error e
            | .ok cs => .ok (c :: cs) from rfl,
        buildModelHead_source fm ai index frame zs sc i hi_fm hi_zs, hms]

lemma buildModels_valueError (fm ai : List Bool) (index : Option (List (List Nat)))
    (frame : Option (List (Option (List Nat)))) (zs : List (Option ℚ)) (sc : Bool) :
    ∀ (ts : List String) (i : Nat),
      i + ts.length ≤ fm.length → i + ts.length ≤ ai.length → i + ts.length ≤ zs.length →
      ("LENSED_POSITION" ∈ ts → ∃ fl, frame = some fl ∧ i + ts.length ≤ fl.length) →
      (∃ t ∈ ts, t ∉ SUPPORTED_MODELS) →
      buildModels fm ai index frame zs sc ts i = .error .valueError := by
  intro ts
  induction ts with
  | nil =>
    intro i _ _ _ _ hbad
    simp at hbad
  | cons t ts ih =>
    intro i hfm hai hzs hframe hbad
    simp only [List.length_cons] at hfm hai hzs
    have hi_fm : i < fm.length := by omega
    have hi_ai : i < ai.length := by omega
    have hi_zs : i < zs.length := by omega
    have hstep : buildModels fm ai index frame zs sc (t :: ts) i =
        match buildModelHead fm ai index frame zs sc t i with
        | .error e => .error e
        | .ok c =>
          match buildModels fm ai index frame zs sc ts (i + 1) with
          | .error e => .error e
          | .ok cs => .ok (c :: cs) := rfl
    by_cases hsup_t : t ∈ SUPPORTED_MODELS
    · have hbad' : ∃ x ∈ ts, x ∉ SUPPORTED_MODELS := by
        rcases hbad with ⟨x, hx, hxbad⟩
        rcases List.mem_cons.mp hx with rfl | hx'
        · exact absurd hsup_t hxbad
        · exact ⟨x, hx', hxbad⟩
      have hframe' : "LENSED_POSITION" ∈ ts →
          ∃ fl, frame = some fl ∧ i + 1 + ts.length ≤ fl.length := by
        intro hmem
        obtain ⟨fl, he, hle⟩ := hframe (List.mem_cons_of_mem _ hmem)
        simp only [List.length_cons] at hle
        exact ⟨fl, he, by omega⟩
      have hrest := ih (i + 1) (by omega) (by omega) (by omega) hframe' hbad'
      simp only [SUPPORTED_MODELS, List.mem_cons, List.mem_singleton] at hsup_t
      have hsup_t' : t = "UNLENSED" ∨ t = "LENSED_POSITION" ∨ t = "SOURCE_POSITION" := by
        rcases hsup_t with h | h | h
        · exact Or.inl h
        · exact Or.inr (Or.inl h)
        · rcases h with h | h
          · exact Or.inr (Or.inr h)
          · simp at h
      rcases hsup_t' with rfl | rfl | rfl
      · rw [hstep, buildModelHead_unlensed, hrest]
      · obtain ⟨fl, hfe, hfl_len⟩ := hframe (List.mem_cons_self _ _)
        simp only [List.length_cons] at hfl_len
        have hi_fl : i < fl.length := by omega
        subst hfe
        rw [hstep, buildModelHead_lensed fm ai index fl zs sc i hi_fm hi_ai hi_fl hi_zs,
          hrest]
      · rw [hstep, buildModelHead_source fm ai index frame zs sc i hi_fm hi_zs, hrest]
    · rw [hstep, buildModelHead_unsupported fm ai index frame zs sc t i hsup_t]

/-- C3: `PointSource` construction raises `ValueError` exactly when (1) some
entry of `point_source_type_list` is unsupported, or (2) LENSED_POSITION is
declared while `index_lens_model_list` is supplied and
`point_source_frame_list` is not; in every other configuration (with
supplied per-source lists of matching length) construction succeeds and
builds one cached model wrapper per declared source, in declaration order,
with the requested caching flag.  Validation happens in the constructor
itself, so dispatch never sees an unsupported type. -/
theorem mkPointSource_spec (point_source_type_list : List String)
    (fixed_magnification_list additional_images_list : Option (List Bool))
    (index_lens_model_list : Option (List (List Nat)))
    (point_source_frame_list : Option (List (Option (List Nat))))
    (redshift_list : Option (List (Option ℚ))) (save_cache : Bool)
    (hfm : ∀ l, fixed_magnification_list = some l →
      l.length = point_source_type_list.length)
    (hai : ∀ l, additional_images_list = some l →
      l.length = point_source_type_list.length)
    (hfr : ∀ l, point_source_frame_list = some l →
      l.length = point_source_type_list.length)
    (hz : ∀ l, redshift_list = some l → l.length = point_source_type_list.length) :
    (mkPointSource point_source_type_list fixed_magnification_list
        additional_images_list index_lens_model_list point_source_frame_list
        redshift_list save_cache = .error .valueError ↔
      ((∃ t ∈ point_source_type_list, t ∉ SUPPORTED_MODELS) ∨
       ("LENSED_POSITION" ∈ point_source_type_list ∧
        index_lens_model_list.isSome ∧ point_source_frame_list.isNone))) ∧
    (((∀ t ∈ point_source_type_list, t ∈ SUPPORTED_MODELS) ∧
      ¬("LENSED_POSITION" ∈ point_source_type_list ∧
        index_lens_model_list.isSome ∧ point_source_frame_list.isNone)) →
      ∃ ms, mkPointSource point_source_type_list fixed_magnification_list
          additional_images_list index_lens_model_list point_source_frame_list
          redshift_list save_cache = .ok ms ∧
        ms.length = point_source_type_list.length ∧
        (∀ k, k < point_source_type_list.length →
          modelType (ms.getD k ⟨.unlensed, false⟩) =
            point_source_type_list.getD k "" ∧
          (ms.getD k ⟨.unlensed, false⟩).save_cache = save_cache)) := by
  have hfm_len : (fixed_magnification_list.getD
      (List.replicate point_source_type_list.length false)).length =
      point_source_type_list.length := by
    cases hc : fixed_magnification_list with
    | none => simp
    | some l => simpa using hfm l hc
  have hai_len : (additional_images_list.getD
      (List.replicate point_source_type_list.length false)).length =
      point_source_type_list.length := by
    cases hc : additional_images_list with
    | none => simp
    | some l => simpa using hai l hc
  have hz_len : (redshift_list.getD
      (List.replicate point_source_type_list.length none)).length =
      point_source_type_list.length := by
    cases hc : redshift_list with
    | none => simp
    | some l => simpa using hz l hc
  by_cases hbad2 : "LENSED_POSITION" ∈ point_source_type_list ∧
      index_lens_model_list.isSome ∧ point_source_frame_list.isNone
  · have hmk : mkPointSource point_source_type_list fixed_magnification_list
        additional_images_list index_lens_model_list point_source_frame_list
        redshift_list save_cache = .error .valueError := by
      simp only [mkPointSource, if_pos hbad2]
    constructor
    · rw [hmk]
      exact ⟨fun _ => Or.inr hbad2, fun _ => rfl⟩
    · rintro ⟨_, hok⟩
      exact absurd hbad2 hok
  · have hmk : mkPointSource point_source_type_list fixed_magnification_list
        additional_images_list index_lens_model_list point_source_frame_list
        redshift_list save_cache =
        buildModels
          (fixed_magnification_list.getD
            (List.replicate point_source_type_list.length false))
          (additional_images_list.getD
            (List.replicate point_source_type_list.length false))
          index_lens_model_list
          (if "LENSED_POSITION" ∈ point_source_type_list ∧
              index_lens_model_list.isNone then
            some (List.replicate point_source_type_list.length none)
          else point_source_frame_list)
          (redshift_list.getD (List.replicate point_source_type_list.length none))
          save_cache point_source_type_list 0 := by
      simp only [mkPointSource, if_neg hbad2]
    have hframe_cond : "LENSED_POSITION" ∈ point_source_type_list →
        ∃ fl, (if "LENSED_POSITION" ∈ point_source_type_list ∧
            index_lens_model_list.isNone then
          some (List.replicate point_source_type_list.length none)
        else point_source_frame_list) = some fl ∧
          0 + point_source_type_list.length ≤ fl.length := by
      intro hmem
      by_cases hidx : index_lens_model_list.isNone
      · exact ⟨List.replicate point_source_type_list.length none,
          by rw [if_pos ⟨hmem, hidx⟩], by simp⟩
      · rcases hfro : point_source_frame_list with _ | fl
        · exfalso
          apply hbad2
          refine ⟨hmem, ?_, by rw [hfro]; rfl⟩
          rcases hopt : index_lens_model_list with _ | v
          · rw [hopt] at hidx
            simp at hidx
          · rfl
        · have hl := hfr fl hfro
          have hcondneg : ¬("LENSED_POSITION" ∈ point_source_type_list ∧
              index_lens_model_list.isNone) := fun hc => hidx hc.2
          refine ⟨fl, ?_, by omega⟩
          simp only [if_neg hcondneg]
    constructor
    · rw [hmk]
      constructor
      · intro herr
        by_cases hall : ∀ t ∈ point_source_type_list, t ∈ SUPPORTED_MODELS
        · obtain ⟨ms, hok, _, _⟩ := buildModels_ok
            (fixed_magnification_list.getD
              (List.replicate point_source_type_list.length false))
            (additional_images_list.getD
              (List.replicate point_source_type_list.length false))
            index_lens_model_list
            (if "LENSED_POSITION" ∈ point_source_type_list ∧
                index_lens_model_list.isNone then
              some (List.replicate point_source_type_list.length none)
            else point_source_frame_list)
            (redshift_list.getD (List.replicate point_source_type_list.length none))
            save_cache point_source_type_list 0 hall (by rw [hfm_len]; omega)
            (by rw [hai_len]; omega) (by rw [hz_len]; omega) hframe_cond
          rw [hok] at herr
          cases herr
        · push_neg at hall
          exact Or.inl hall
      · intro hcase
        rcases hcase with hbadt | hb2
        · exact buildModels_valueError
            (fixed_magnification_list.getD
              (List.replicate point_source_type_list.length false))
            (additional_images_list.getD
              (List.replicate point_source_type_list.length false))
            index_lens_model_list
            (if "LENSED_POSITION" ∈ point_source_type_list ∧
                index_lens_model_list.isNone then
              some (List.replicate point_source_type_list.length none)
            else point_source_frame_list)
            (redshift_list.getD (List.replicate point_source_type_list.length none))
            save_cache point_source_type_list 0 (by rw [hfm_len]; omega)
            (by rw [hai_len]; omega) (by rw [hz_len]; omega) hframe_cond hbadt
        · exact absurd hb2 hbad2
    · rintro ⟨hall, _⟩
      obtain ⟨ms, hok, hlen, hmt⟩ := buildModels_ok
        (fixed_magnification_list.getD
          (List.replicate point_source_type_list.length false))
        (additional_images_list.getD
          (List.replicate point_source_type_list.length false))
        index_lens_model_list
        (if "LENSED_POSITION" ∈ point_source_type_list ∧
            index_lens_model_list.isNone then
          some (List.replicate point_source_type_list.length none)
        else point_source_frame_list)
        (redshift_list.getD (List.replicate point_source_type_list.length none))
        save_cache point_source_type_list 0 hall (by rw [hfm_len]; omega)
        (by rw [hai_len]; omega) (by rw [hz_len]; omega) hframe_cond
      exact ⟨ms, by rw [hmk]; exact hok, hlen, hmt⟩

/-- Witness for C3: two sources `["UNLENSED", "SOURCE_POSITION"]` with all
optional arguments left `None`: construction succeeds with one wrapper per
source in order. -/
theorem mkPointSource_spec_witness :
    ∃ ms, mkPointSource ["UNLENSED", "SOURCE_POSITION"] none none none none none
        false = .ok ms ∧
      ms.length = (["UNLENSED", "SOURCE_POSITION"] : List String).length ∧
      (∀ k, k < (["UNLENSED", "SOURCE_POSITION"] : List String).length →
        modelType (ms.getD k ⟨.unlensed, false⟩) =
          (["UNLENSED", "SOURCE_POSITION"] : List String).getD k "" ∧
        (ms.getD k ⟨.unlensed, false⟩).save_cache = false) :=
  (mkPointSource_spec ["UNLENSED", "SOURCE_POSITION"] none none none none none false
    (fun _ hl => nomatch hl) (fun _ hl => nomatch hl) (fun _ hl => nomatch hl)
    (fun _ hl => nomatch hl)).2 ⟨by decide, by decide⟩

end PointSrc
